import Mathlib

/-!
DS64BR401 signal repeater driver (`ds64br401.c`).


A shallow embedding of the driver's register addressing map, its reset and
power helpers and its probe routine.  The I2C bus and the device-tree property
reader are kernel services outside the driver: they are taken as a parameter
(`Env`), a state machine over an arbitrary state type whose answers the driver
cannot predict.  Every call the driver makes to them is appended to a log
together with the value the call returned, so that statements about which
operations were issued, in which order and with which outcome can be made.
-/

namespace DS64BR401

/-! ## Register map (ds64br401.c lines 15-33) -/

def DS64BR401_RESET : Int := 0x00
def DS64BR401_PWDN : Int := 0x01
def DS64BR401_PWDN_CTL : Int := 0x02
def DS64BR401_PINCTL : Int := 0x08

def DS64BR401_IDLERATE : Int := 0x00
def DS64BR401_EQ : Int := 0x01
def DS64BR401_VOD : Int := 0x02
def DS64BR401_DEM : Int := 0x03
def DS64BR401_IDLETHRESH : Int := 0x04

def ds64br401_chan_base : List Int :=
  [0x0e, 0x15, 0x1c, 0x23, 0x2b, 0x32, 0x39, 0x40]

/-- The C function `ds64br401_chan_reg`: `ds64br401_chan_base[chan] + reg`.
Reading the table outside `0..7` is undefined in C; the model reads `0` there.
The driver only ever passes the loop index `0..7`, and every statement below
restricts `chan` to that range. -/
def ds64br401_chan_reg (chan : Nat) (reg : Int) : Int :=
  ds64br401_chan_base.getD chan 0 + reg

/-! ## Machine integers -/

/-- Conversion of a C `int` to `u8`, as happens when an `int` is passed for a
`u8` parameter: reduction modulo 256. -/
def to_u8 (x : Int) : Nat := (x % 256).toNat

/-- The `int` stored in `int val[8]` after `of_property_read_u32_array` wrote
the 32-bit cell `v` through the `u32 *` view of that buffer: the two's
complement reading of the low 32 bits. -/
def u32_as_int (v : Nat) : Int :=
  if v % 4294967296 < 2147483648 then (v % 4294967296 : Nat)
  else ((v % 4294967296 : Nat) : Int) - 4294967296

/-! ## The kernel services the driver calls -/

/-- The bus and the configuration source.  Each service takes the current
state of the outside world and returns its answer and the next state.
* `i2c_smbus_read_byte_data reg`: the byte read (`0..255`) or a negative errno;
* `i2c_smbus_write_byte_data reg val`: `0` or a negative errno;
* `of_property_read_u32_array prop sz`: `0` and the `sz` cells read, or a
  negative errno (property missing, no value, fewer than `sz` cells). -/
structure Env (σ : Type) where
  i2c_smbus_read_byte_data : σ → Nat → Int × σ
  i2c_smbus_write_byte_data : σ → Nat → Nat → Int × σ
  of_property_read_u32_array : σ → String → Nat → (Int × List Nat) × σ

/-- One operation requested from the outside world. -/
inductive Op where
  | read (reg : Nat)
  | write (reg : Nat) (val : Nat)
  | fetch (prop : String)
  | pm_runtime_enable
  | pm_runtime_disable
  deriving DecidableEq

/-- A logged call: the operation and the `int` it returned (`0` for the
`void` power-management calls). -/
structure Call where
  op : Op
  ret : Int
  deriving DecidableEq

/-- State threaded through the driver: the outside world and the log. -/
structure State (σ : Type) where
  world : σ
  trace : List Call

/-- Fresh log over a given outside world. -/
def State.init {σ : Type} (w : σ) : State σ := ⟨w, []⟩

/-! ## Driver functions (ds64br401.c lines 35-132) -/

section Driver
variable {σ : Type}

/-- The C function `ds64br401_read(client, u8 reg)` (lines 35-38): the `int`
register argument is converted to `u8` and the bus result returned. -/
def ds64br401_read (E : Env σ) (s : State σ) (reg : Int) : Int × State σ :=
  let r := E.i2c_smbus_read_byte_data s.world (to_u8 reg)
  (r.1, ⟨r.2, s.trace ++ [⟨Op.read (to_u8 reg), r.1⟩]⟩)

/-- The C function `ds64br401_write(client, u8 reg, u8 val)` (lines 40-43): both
`int` arguments are converted to `u8` and the bus result returned. -/
def ds64br401_write (E : Env σ) (s : State σ) (reg : Int) (val : Int) : Int × State σ :=
  let r := E.i2c_smbus_write_byte_data s.world (to_u8 reg) (to_u8 val)
  (r.1, ⟨r.2, s.trace ++ [⟨Op.write (to_u8 reg) (to_u8 val), r.1⟩]⟩)

/-- The call `of_property_read_u32_array(np, prop, val, sz)` as seen by the
driver: the return code and the content of `int val[]` after the call. -/
def of_property_read_u32_array (E : Env σ) (s : State σ) (prop : String) (sz : Nat) :
    Int × List Int × State σ :=
  let r := E.of_property_read_u32_array s.world prop sz
  (r.1.1, r.1.2.map u32_as_int, ⟨r.2, s.trace ++ [⟨Op.fetch prop, r.1.1⟩]⟩)

/-- The call `pm_runtime_enable(&client->dev)`. -/
def pm_runtime_enable (s : State σ) : State σ :=
  ⟨s.world, s.trace ++ [⟨Op.pm_runtime_enable, 0⟩]⟩

/-- The call `pm_runtime_disable(&client->dev)`. -/
def pm_runtime_disable (s : State σ) : State σ :=
  ⟨s.world, s.trace ++ [⟨Op.pm_runtime_disable, 0⟩]⟩

/-- The C function `ds64br401_reset` (lines 45-56). -/
def ds64br401_reset (E : Env σ) (s : State σ) : Int × State σ :=
  let r := ds64br401_read E s DS64BR401_RESET
  let ret := r.1
  if ret < 0 then (ret, r.2)
  else
    let ret := Int.lor ret 0x01
    ds64br401_write E r.2 DS64BR401_RESET ret

/-- The C function `ds64br401_power` (lines 58-63); `on_` is its parameter `on`. -/
def ds64br401_power (E : Env σ) (s : State σ) (on_ : Int) : Int × State σ :=
  let val : Int := if on_ ≠ 0 then 0 else 0xff
  ds64br401_write E s DS64BR401_PWDN val

/-- The body of the `for (i = 0; i < 8; i++)` loop of the macro
`DS64BR401_INIT(prop, _reg)` (lines 83-92), run for the indices in `is`.
A nonzero first component is the `return err;` that leaves probe; `0` means
the loop ran to its end and control falls through to the next statement.
`val.getD i 0` is `val[i]`: a successful read has filled all 8 slots. -/
def DS64BR401_INIT_loop (E : Env σ) (prop : String) (_reg : Int) :
    List Nat → State σ → Int × State σ
  | [], s => (0, s)
  | i :: is, s =>
    let f := of_property_read_u32_array E s prop 8
    let err := f.1
    let val := f.2.1
    if err ≠ 0 then (err, f.2.2)
    else
      let reg := ds64br401_chan_reg i _reg
      let w := ds64br401_write E f.2.2 reg (val.getD i 0)
      let err := w.1
      if err ≠ 0 then (err, w.2)
      else DS64BR401_INIT_loop E prop _reg is w.2

/-- The macro `DS64BR401_INIT(prop, _reg)`: the loop over `i = 0, ..., 7`. -/
def DS64BR401_INIT (E : Env σ) (prop : String) (_reg : Int) (s : State σ) : Int × State σ :=
  DS64BR401_INIT_loop E prop _reg (List.range 8) s

/-- The configuration phase of `ds64br401_probe`: the five macro invocations
of lines 94-98, in source order. -/
def ds64br401_probe_init (E : Env σ) (s : State σ) : Int × State σ :=
  let r := DS64BR401_INIT E "idle-threshold" DS64BR401_IDLETHRESH s
  if r.1 ≠ 0 then r
  else
    let r := DS64BR401_INIT E "idle-rate" DS64BR401_IDLERATE r.2
    if r.1 ≠ 0 then r
    else
      let r := DS64BR401_INIT E "eq" DS64BR401_EQ r.2
      if r.1 ≠ 0 then r
      else
        let r := DS64BR401_INIT E "vod" DS64BR401_VOD r.2
        if r.1 ≠ 0 then r
        else DS64BR401_INIT E "dem" DS64BR401_DEM r.2

/-- The C function `ds64br401_probe` (lines 65-104). -/
def ds64br401_probe (E : Env σ) (s : State σ) : Int × State σ :=
  let r := ds64br401_reset E s
  if r.1 ≠ 0 then r
  else
    let r := ds64br401_power E r.2 1
    if r.1 ≠ 0 then r
    else
      let r := ds64br401_write E r.2 DS64BR401_PWDN_CTL 0x1
      if r.1 ≠ 0 then r
      else
        let r := ds64br401_probe_init E r.2
        if r.1 ≠ 0 then r
        else (0, pm_runtime_enable r.2)

/-- The C function `ds64br401_remove` (lines 106-111). -/
def ds64br401_remove (s : State σ) : Int × State σ :=
  (0, pm_runtime_disable s)

/-- The C function `ds64br401_runtime_suspend` (lines 120-125). -/
def ds64br401_runtime_suspend (E : Env σ) (s : State σ) : Int × State σ :=
  ds64br401_power E s 0

/-- The C function `ds64br401_runtime_resume` (lines 127-132). -/
def ds64br401_runtime_resume (E : Env σ) (s : State σ) : Int × State σ :=
  ds64br401_power E s 1

end Driver

/-! ## Reading the log -/

/-- Bus transfers: register reads and writes. -/
def Op.isBus : Op → Bool
  | Op.read _ => true
  | Op.write _ _ => true
  | _ => false

/-- The bus transfers of a log, in the order issued. -/
def bus_ops (t : List Call) : List Op := (t.map Call.op).filter Op.isBus

/-- Whether a logged call failed, by the convention of the service called: a
read fails with a negative value, a write or a property read with a nonzero
one; the power-management calls cannot fail. -/
def Call.failed (c : Call) : Bool :=
  match c.op with
  | Op.read _ => decide (c.ret < 0)
  | Op.write _ _ => decide (c.ret ≠ 0)
  | Op.fetch _ => decide (c.ret ≠ 0)
  | _ => false

/-- The five (property, register offset) pairs in the order probe passes them
to `DS64BR401_INIT`. -/
def init_table : List (String × Int) :=
  [("idle-threshold", DS64BR401_IDLETHRESH), ("idle-rate", DS64BR401_IDLERATE),
   ("eq", DS64BR401_EQ), ("vod", DS64BR401_VOD), ("dem", DS64BR401_DEM)]

/-! ## Specification-side tables -/

/-- The eight channel base addresses as the specification lists them. -/
def spec_base : List Int := [0x0e, 0x15, 0x1c, 0x23, 0x2b, 0x32, 0x39, 0x40]

/-- The five per-kind register offsets used by probe. -/
def kind_offsets : List Int :=
  [DS64BR401_IDLERATE, DS64BR401_EQ, DS64BR401_VOD, DS64BR401_DEM, DS64BR401_IDLETHRESH]

/-- The two calls one loop iteration logs when both succeed: the property read
and the write of the low byte of cell `i` to channel `i`'s register. -/
def iter_calls (prop : String) (_reg : Int) (vals : List Nat) (i : Nat) : List Call :=
  [⟨Op.fetch prop, 0⟩,
   ⟨Op.write (to_u8 (ds64br401_chan_reg i _reg)) (vals.getD i 0 % 256), 0⟩]

/-- The log of a configuration phase in which everything succeeds: for each
property in probe's order, the eight iterations. -/
def init_calls (vals : String → List Nat) : List Call :=
  init_table.flatMap fun pk => (List.range 8).flatMap (iter_calls pk.1 pk.2 (vals pk.1))

/-- The forty register writes the specification expects of a successful
configuration: for each kind in probe's order and each channel `0..7`, the
kind's value for the channel written to the channel's register of that kind. -/
def expected_writes (vals : String → List Nat) : List Op :=
  init_table.flatMap fun pk =>
    (List.range 8).map fun c =>
      Op.write (ds64br401_chan_reg c pk.2).toNat ((vals pk.1).getD c 0)

/-- Whether a bus transfer addresses register `a`. -/
def Op.targets (a : Nat) : Op → Bool
  | Op.read r => decide (r = a)
  | Op.write r _ => decide (r = a)
  | _ => false

/-- A log in which no call failed and auto-suspend has not been enabled. -/
def Clean (t : List Call) : Prop :=
  ∀ c ∈ t, c.failed = false ∧ c.op ≠ Op.pm_runtime_enable

/-- The fail-fast shape of a return code and a log: either the code is `0` and
the log is clean, or the code is nonzero, the last logged call failed and
returned that code, and the log before it is clean. -/
def Outcome (ret : Int) (t : List Call) : Prop :=
  (ret = 0 ∧ Clean t) ∨
  (ret ≠ 0 ∧ ∃ t0 c, t = t0 ++ [c] ∧ Clean t0 ∧ c.failed = true ∧ c.ret = ret ∧
    c.op ≠ Op.pm_runtime_enable)

/-- Forget the byte a write carries, keeping its register. -/
def Op.unval : Op → Op
  | Op.write r _ => Op.write r 0
  | o => o

/-- The operations of a log with the written bytes forgotten. -/
def skeleton (t : List Call) : List Op := t.map fun c => c.op.unval

/-- Whether an operation is a property read. -/
def Op.isFetch : Op → Bool
  | Op.fetch _ => true
  | _ => false

/-- Whether an operation is a register read. -/
def Op.isRead : Op → Bool
  | Op.read _ => true
  | _ => false

/-- Whether an operation is a register write. -/
def Op.isWrite : Op → Bool
  | Op.write _ _ => true
  | _ => false

/-- The operations of a configuration phase that runs to its end, bytes
forgotten: for each kind in probe's order and each channel `0..7`, the property
read and then the write to the channel's register of that kind. -/
def init_skeleton : List Op :=
  init_table.flatMap fun pk => (List.range 8).flatMap fun c =>
    [Op.fetch pk.1, Op.write (ds64br401_chan_reg c pk.2).toNat 0]

/-- The order in which the specification lists the kinds for configuration:
IdleThreshold, IdleRate, Eq, Vod, Dem (as register offsets). -/
def kind_order : List Int :=
  [DS64BR401_IDLETHRESH, DS64BR401_IDLERATE, DS64BR401_EQ, DS64BR401_VOD, DS64BR401_DEM]

/-- The register a write addresses. -/
def Op.writeReg : Op → Option Nat
  | Op.write r _ => some r
  | _ => none

/-- The bus transfers of the configuration phase when every operation succeeds
and the source yields the cells `vals`: forty writes of the low bytes. -/
def full_init_ops (vals : String → List Nat) : List Op :=
  init_table.flatMap fun pk => (List.range 8).map fun c =>
    Op.write (ds64br401_chan_reg c pk.2).toNat ((vals pk.1).getD c 0 % 256)

/-- The bus transfers of probe when every operation succeeds, the reset
register reads `v` and the source yields the cells `vals`. -/
def full_bus_ops (v : Int) (vals : String → List Nat) : List Op :=
  [Op.read 0, Op.write 0 (to_u8 (Int.lor v 0x01)), Op.write 0x01 0x00, Op.write 0x02 0x01] ++
    full_init_ops vals

/-- A step from state `s` with result `r` issued a prefix `p` of the bus
transfers `F`, all of `F` when it returned `0`. -/
def BusAt {σ : Type} (r : Int × State σ) (s : State σ) (F : List Op) : Prop :=
  ∃ p, bus_ops r.2.trace = bus_ops s.trace ++ p ∧ p <+: F ∧ (r.1 = 0 → p = F)

/-- A register file after the writes `ws` (register, byte), applied in order. -/
def apply_writes (rf : Nat → Nat) : List (Nat × Nat) → Nat → Nat
  | [] => rf
  | aw :: ws => apply_writes (Function.update rf aw.1 aw.2) ws

/-- The forty (register, byte) pairs of a configuration phase in which every
operation succeeds and the source yields the cells `vals`. -/
def init_writes (vals : String → List Nat) : List (Nat × Nat) :=
  init_table.flatMap fun pk => (List.range 8).map fun c =>
    ((ds64br401_chan_reg c pk.2).toNat, (vals pk.1).getD c 0 % 256)

/-! ## A sample outside world -/

/-- A sample device tree and bus, after the kernel documentation of the three
services: the reset register reads `rst`; a write fails with `bad.2` on the
register `bad.1` (when given) and succeeds elsewhere; a property read fails
with `-EINVAL` (-22) when `cells prop` is absent, with `-EOVERFLOW` (-75) when
it holds fewer than `sz` cells, and otherwise yields its first `sz` cells. -/
def sampleEnv (rst : Int) (cells : String → Option (List Nat)) (bad : Option (Nat × Int)) :
    Env Unit where
  i2c_smbus_read_byte_data := fun _ _ => (rst, ())
  i2c_smbus_write_byte_data := fun _ reg _ =>
    match bad with
    | some b => if reg = b.1 then (b.2, ()) else (0, ())
    | none => (0, ())
  of_property_read_u32_array := fun _ prop sz =>
    match cells prop with
    | none => ((-22, []), ())
    | some l => if l.length < sz then ((-75, []), ()) else ((0, l.take sz), ())

/-- Sample device-tree cells: every property holds eight cells `c, c+1, ...`
starting at a per-property value. -/
def sampleCells (prop : String) : Option (List Nat) :=
  if prop = "idle-threshold" then some [1, 2, 3, 4, 5, 6, 7, 8]
  else if prop = "idle-rate" then some [0, 1, 0, 1, 0, 1, 0, 1]
  else if prop = "eq" then some [16, 17, 18, 19, 20, 21, 22, 23]
  else if prop = "vod" then some [32, 33, 34, 35, 36, 37, 38, 39]
  else if prop = "dem" then some [48, 49, 50, 51, 52, 53, 54, 55]
  else none

/-- The cells of `sampleCells`, empty for an absent property. -/
def sampleVals (prop : String) : List Nat := (sampleCells prop).getD []

/-- Sample device-tree cells with values that do not fit a byte: cell 0 of
"idle-threshold" is 300 and cell 7 of "dem" is 4294967295. -/
def wideCells (prop : String) : Option (List Nat) :=
  if prop = "idle-threshold" then some [300, 2, 3, 4, 5, 6, 7, 8]
  else if prop = "dem" then some [48, 49, 50, 51, 52, 53, 54, 4294967295]
  else sampleCells prop

/-- The cells of `wideCells`, empty for an absent property. -/
def wideVals (prop : String) : List Nat := (wideCells prop).getD []

/-- Sample device-tree cells whose "eq" property holds only seven cells. -/
def shortEqCells (prop : String) : Option (List Nat) :=
  if prop = "eq" then some [16, 17, 18, 19, 20, 21, 22] else sampleCells prop

/-- A device that is a plain register file: a read returns the content of
the register, a write always succeeds and stores its byte, and the device tree
is read as in `sampleEnv`. -/
def regfileEnv (cells : String → Option (List Nat)) : Env (Nat → Nat) where
  i2c_smbus_read_byte_data := fun rf reg => ((rf reg : Int), rf)
  i2c_smbus_write_byte_data := fun rf reg val => (0, Function.update rf reg val)
  of_property_read_u32_array := fun rf prop sz =>
    match cells prop with
    | none => ((-22, []), rf)
    | some l => if l.length < sz then ((-75, []), rf) else ((0, l.take sz), rf)

/-! ## Register addressing map -/

/-- C2: for channels `c1, c2` in `[0,8)` and offsets `k1, k2` among the five
kind offsets, equal register addresses force equal channel and equal kind. -/
theorem chan_reg_injective (c1 c2 : Nat) (k1 k2 : Int) (h1 : c1 < 8) (h2 : c2 < 8)
    (hk1 : k1 ∈ kind_offsets) (hk2 : k2 ∈ kind_offsets)
    (h : ds64br401_chan_reg c1 k1 = ds64br401_chan_reg c2 k2) : c1 = c2 ∧ k1 = k2 := by
  simp only [kind_offsets, List.mem_cons, List.mem_singleton, List.not_mem_nil, or_false]
    at hk1 hk2
  interval_cases c1 <;> interval_cases c2 <;>
    rcases hk1 with e1 | e1 | e1 | e1 | e1 <;> rcases hk2 with e2 | e2 | e2 | e2 | e2 <;>
    subst e1 <;> subst e2 <;> revert h <;> decide

/-- Witness for C2 at channel 3, offset `DS64BR401_VOD` on both sides. -/
theorem chan_reg_injective_witness :
    ds64br401_chan_reg 3 DS64BR401_VOD = ds64br401_chan_reg 3 DS64BR401_VOD ∧
    ((3 : Nat) = 3 ∧ DS64BR401_VOD = DS64BR401_VOD) :=
  ⟨rfl, chan_reg_injective 3 3 DS64BR401_VOD DS64BR401_VOD (by decide) (by decide)
    (by decide) (by decide) rfl⟩

/-- C3 as stated fails: the address of channel 0's idle-threshold register
is not `0x0e`. -/
theorem chan0_idlethresh_ne_0x0e :
    ds64br401_chan_reg 0 DS64BR401_IDLETHRESH ≠ 0x0e := by decide

/-- C3 amended: the address of channel 0's idle-threshold register is `0x12`
(base `0x0e` plus offset `0x04`); `0x0e` is channel 0's idle-rate register. -/
theorem chan0_idlethresh_eq_0x12 :
    ds64br401_chan_reg 0 DS64BR401_IDLETHRESH = 0x12 ∧
    ds64br401_chan_reg 0 DS64BR401_IDLERATE = 0x0e := by decide

/-- C4: for every channel in `[0,8)` the five register addresses are the
specification's base for that channel plus the offsets `0x00` (idle rate),
`0x01` (eq), `0x02` (vod), `0x03` (dem), `0x04` (idle threshold); channel 7's
dem register is `0x43`. -/
theorem chan_reg_eq_base_add_offset (c : Nat) (hc : c < 8) :
    ds64br401_chan_reg c DS64BR401_IDLERATE = spec_base.getD c 0 + 0x00 ∧
    ds64br401_chan_reg c DS64BR401_EQ = spec_base.getD c 0 + 0x01 ∧
    ds64br401_chan_reg c DS64BR401_VOD = spec_base.getD c 0 + 0x02 ∧
    ds64br401_chan_reg c DS64BR401_DEM = spec_base.getD c 0 + 0x03 ∧
    ds64br401_chan_reg c DS64BR401_IDLETHRESH = spec_base.getD c 0 + 0x04 ∧
    ds64br401_chan_reg 7 DS64BR401_DEM = 0x43 := by
  interval_cases c <;> decide

/-- Witness for C4 at channel 7. -/
theorem chan_reg_eq_base_add_offset_witness :
    ds64br401_chan_reg 7 DS64BR401_IDLERATE = spec_base.getD 7 0 + 0x00 ∧
    ds64br401_chan_reg 7 DS64BR401_EQ = spec_base.getD 7 0 + 0x01 ∧
    ds64br401_chan_reg 7 DS64BR401_VOD = spec_base.getD 7 0 + 0x02 ∧
    ds64br401_chan_reg 7 DS64BR401_DEM = spec_base.getD 7 0 + 0x03 ∧
    ds64br401_chan_reg 7 DS64BR401_IDLETHRESH = spec_base.getD 7 0 + 0x04 ∧
    ds64br401_chan_reg 7 DS64BR401_DEM = 0x43 :=
  chan_reg_eq_base_add_offset 7 (by decide)

/-! ## Machine-integer facts -/

theorem to_u8_natCast (n : Nat) (h : n < 256) : to_u8 (n : Int) = n := by
  unfold to_u8; omega

theorem to_u8_u32_as_int (v : Nat) : to_u8 (u32_as_int v) = v % 256 := by
  unfold to_u8 u32_as_int; split <;> omega

theorem lor_one_natCast (v : Nat) : Int.lor (v : Int) 0x01 = ((v ||| 1 : Nat) : Int) := rfl

theorem lor_one_lt (v : Nat) (h : v < 256) : v ||| 1 < 256 :=
  Nat.or_lt_two_pow h (by decide : 1 < 2 ^ 8)

/-! ## Reset and power -/

/-- C5: when the read of the reset register returns the byte `v` and the write
that follows succeeds, reset issues exactly one read of register `0x00` and then
one write to register `0x00` of `v ||| 1`, nothing else, and returns `0`; the
value written has bit 0 set and its other bits equal to those of `v`. -/
theorem reset_read_modify_write {σ : Type} (E : Env σ) (w : σ) (v : Nat) (hv : v < 256)
    (hr : (E.i2c_smbus_read_byte_data w 0).1 = (v : Int))
    (hw : (E.i2c_smbus_write_byte_data (E.i2c_smbus_read_byte_data w 0).2 0 (v ||| 1)).1 = 0) :
    (ds64br401_reset E (State.init w)).1 = 0 ∧
    (ds64br401_reset E (State.init w)).2.trace =
      [⟨Op.read 0, (v : Int)⟩, ⟨Op.write 0 (v ||| 1), 0⟩] ∧
    (v ||| 1).testBit 0 = true ∧
    ∀ i, 1 ≤ i → (v ||| 1).testBit i = v.testBit i := by
  have h8 : to_u8 DS64BR401_RESET = 0 := by decide
  have hlt := lor_one_lt v hv
  have hnn : ¬ ((v : Int) < 0) := by omega
  refine ⟨?_, ?_, ?_, ?_⟩
  · simp [ds64br401_reset, ds64br401_read, ds64br401_write, State.init, h8, hr, hnn,
      lor_one_natCast, to_u8_natCast _ hlt, hw]
  · simp [ds64br401_reset, ds64br401_read, ds64br401_write, State.init, h8, hr, hnn,
      lor_one_natCast, to_u8_natCast _ hlt, hw]
  · simp
  · intro i hi
    have : Nat.testBit 1 i = false := by
      cases h : Nat.testBit 1 i
      · rfl
      · have := Nat.testBit_one_eq_true_iff_self_eq_zero.mp h; omega
    simp [this]

/-- Witness for C5: the reset register reads `0b10100000`; reset reads it
once and writes `0b10100001` back. -/
theorem reset_read_modify_write_witness :
    (ds64br401_reset (sampleEnv 0xa0 sampleCells none) (State.init ())).1 = 0 ∧
    (ds64br401_reset (sampleEnv 0xa0 sampleCells none) (State.init ())).2.trace =
      [⟨Op.read 0, 0xa0⟩, ⟨Op.write 0 0xa1, 0⟩] :=
  ⟨(reset_read_modify_write (sampleEnv 0xa0 sampleCells none) () 0xa0 (by decide) rfl rfl).1,
   (reset_read_modify_write (sampleEnv 0xa0 sampleCells none) () 0xa0 (by decide) rfl rfl).2.1⟩

/-- C6: on every bus and in every bus state, `ds64br401_power` issues exactly
one operation, a write to the power-down register `0x01`, with no read before
it: of `0x00` when `on` is `1` (or any nonzero value), of `0xff` when `on` is
`0`.  The value depends on `on` alone. -/
theorem power_blind_write {σ : Type} (E : Env σ) (w : σ) :
    (ds64br401_power E (State.init w) 1).2.trace.map Call.op = [Op.write 0x01 0x00] ∧
    (ds64br401_power E (State.init w) 0).2.trace.map Call.op = [Op.write 0x01 0xff] ∧
    ∀ on_ : Int, on_ ≠ 0 →
      (ds64br401_power E (State.init w) on_).2.trace.map Call.op = [Op.write 0x01 0x00] := by
  have h1 : to_u8 DS64BR401_PWDN = 1 := by decide
  have h0 : to_u8 0 = 0 := by decide
  have hff : to_u8 0xff = 0xff := by decide
  refine ⟨?_, ?_, ?_⟩
  · simp [ds64br401_power, ds64br401_write, State.init, h1, h0]
  · simp [ds64br401_power, ds64br401_write, State.init, h1, hff]
  · intro on_ hon
    simp [ds64br401_power, ds64br401_write, State.init, h1, h0, hon]

/-! ## The configuration loop when everything succeeds -/

theorem val_getD_to_u8 (vals : List Nat) (i : Nat) :
    to_u8 ((vals.map u32_as_int).getD i 0) = vals.getD i 0 % 256 := by
  have h0 : (0 : Int) = u32_as_int 0 := by decide
  have h : (vals.map u32_as_int).getD i 0 = u32_as_int (vals.getD i 0) := by
    conv_lhs => rw [h0]
    exact List.getD_map vals 0 u32_as_int
  rw [h, to_u8_u32_as_int]

/-- Running the loop over `a ++ b` is running it over `a` and, when that
ran to its end, over `b`. -/
theorem INIT_loop_append {σ : Type} (E : Env σ) (prop : String) (_reg : Int)
    (a b : List Nat) (s : State σ) :
    DS64BR401_INIT_loop E prop _reg (a ++ b) s =
      if (DS64BR401_INIT_loop E prop _reg a s).1 ≠ 0 then DS64BR401_INIT_loop E prop _reg a s
      else DS64BR401_INIT_loop E prop _reg b (DS64BR401_INIT_loop E prop _reg a s).2 := by
  induction a generalizing s with
  | nil => simp [DS64BR401_INIT_loop]
  | cons i is ih =>
    simp only [List.cons_append, DS64BR401_INIT_loop]
    split
    · rename_i h; simp [h]
    · split
      · rename_i h; simp [h]
      · exact ih _

/-- When every read of `prop` yields the cells `vals` and every write to the
registers of the channels in `is` succeeds, the loop runs to its end and logs,
per channel, one property read and one register write of `vals[i] mod 256`. -/
theorem INIT_loop_ok {σ : Type} (E : Env σ) (prop : String) (_reg : Int) (vals : List Nat)
    (is : List Nat)
    (hf : ∀ w, (E.of_property_read_u32_array w prop 8).1 = (0, vals))
    (hw : ∀ w v, ∀ i ∈ is,
      (E.i2c_smbus_write_byte_data w (to_u8 (ds64br401_chan_reg i _reg)) v).1 = 0)
    (s : State σ) :
    (DS64BR401_INIT_loop E prop _reg is s).1 = 0 ∧
    (DS64BR401_INIT_loop E prop _reg is s).2.trace =
      s.trace ++ is.flatMap (iter_calls prop _reg vals) := by
  induction is generalizing s with
  | nil => simp [DS64BR401_INIT_loop]
  | cons i is ih =>
    have hw1 : ∀ w v, ∀ j ∈ is,
        (E.i2c_smbus_write_byte_data w (to_u8 (ds64br401_chan_reg j _reg)) v).1 = 0 :=
      fun w v j hj => hw w v j (List.mem_cons_of_mem _ hj)
    have hwi := fun w v => hw w v i (List.mem_cons_self _ _)
    simp only [DS64BR401_INIT_loop, of_property_read_u32_array, ds64br401_write, hf, hwi,
      ne_eq, not_true_eq_false, if_false, val_getD_to_u8]
    refine ⟨(ih hw1 _).1, ?_⟩
    rw [(ih hw1 _).2]
    simp [iter_calls]

theorem range_eight : List.range 8 = [0, 1, 2, 3, 4, 5, 6, 7] := by decide

/-- When every property read and every register write succeeds, the
configuration phase runs all five loops to their end. -/
theorem probe_init_ok {σ : Type} (E : Env σ) (vals : String → List Nat)
    (hf : ∀ pk ∈ init_table, ∀ w, (E.of_property_read_u32_array w pk.1 8).1 = (0, vals pk.1))
    (hw : ∀ w r v, (E.i2c_smbus_write_byte_data w r v).1 = 0) (s : State σ) :
    (ds64br401_probe_init E s).1 = 0 ∧
    (ds64br401_probe_init E s).2.trace = s.trace ++ init_calls vals := by
  have L := fun (pk : String × Int) (h : pk ∈ init_table) (t : State σ) =>
    INIT_loop_ok E pk.1 pk.2 (vals pk.1) (List.range 8) (hf pk h)
      (fun w v _ _ => hw w _ v) t
  have h1 := L ("idle-threshold", DS64BR401_IDLETHRESH) (by simp [init_table]) s
  have h2 := L ("idle-rate", DS64BR401_IDLERATE) (by simp [init_table])
    (DS64BR401_INIT E "idle-threshold" DS64BR401_IDLETHRESH s).2
  have h3 := L ("eq", DS64BR401_EQ) (by simp [init_table])
    (DS64BR401_INIT E "idle-rate" DS64BR401_IDLERATE
      (DS64BR401_INIT E "idle-threshold" DS64BR401_IDLETHRESH s).2).2
  have h4 := L ("vod", DS64BR401_VOD) (by simp [init_table])
    (DS64BR401_INIT E "eq" DS64BR401_EQ (DS64BR401_INIT E "idle-rate" DS64BR401_IDLERATE
      (DS64BR401_INIT E "idle-threshold" DS64BR401_IDLETHRESH s).2).2).2
  have h5 := L ("dem", DS64BR401_DEM) (by simp [init_table])
    (DS64BR401_INIT E "vod" DS64BR401_VOD
      (DS64BR401_INIT E "eq" DS64BR401_EQ (DS64BR401_INIT E "idle-rate" DS64BR401_IDLERATE
        (DS64BR401_INIT E "idle-threshold" DS64BR401_IDLETHRESH s).2).2).2).2
  simp only [DS64BR401_INIT] at h1 h2 h3 h4 h5
  simp only [ds64br401_probe_init, DS64BR401_INIT, h1.1, h2.1, h3.1, h4.1, ne_eq,
    not_true_eq_false, if_false]
  refine ⟨h5.1, ?_⟩
  rw [h5.2, h4.2, h3.2, h2.2, h1.2]
  simp [init_calls, init_table, List.append_assoc]

theorem getD_mod_of_bytes (l : List Nat) (h : ∀ x ∈ l, x < 256) (c : Nat) :
    l.getD c 0 % 256 = l.getD c 0 := by
  apply Nat.mod_eq_of_lt
  by_cases hc : c < l.length
  · rw [List.getD_eq_getElem l 0 hc]; exact h _ (List.getElem_mem _)
  · rw [List.getD_eq_default l 0 (by omega)]; decide

/-- The bus transfers of a fully successful configuration log, with the
addresses evaluated. -/
theorem bus_ops_init_calls (vals : String → List Nat) :
    bus_ops (init_calls vals) =
      init_table.flatMap fun pk => (List.range 8).map fun c =>
        Op.write (ds64br401_chan_reg c pk.2).toNat ((vals pk.1).getD c 0 % 256) := by
  simp only [init_calls, init_table, range_eight, List.flatMap_cons, List.flatMap_nil,
    iter_calls, bus_ops, List.map_cons, List.map_nil, List.append_nil, List.cons_append,
    List.nil_append, List.singleton_append]
  rfl

/-- C1: when every property read yields a valid array of eight byte values
for each of the five kinds and every bus write succeeds, the configuration phase
returns `0` and its bus transfers are exactly the forty expected writes: one
per (kind, channel), to `ds64br401_chan_reg channel offset`, carrying the value
of that kind for that channel. -/
theorem configure_completeness {σ : Type} (E : Env σ) (w : σ) (vals : String → List Nat)
    (hf : ∀ pk ∈ init_table, ∀ w, (E.of_property_read_u32_array w pk.1 8).1 = (0, vals pk.1))
    (_hlen : ∀ pk ∈ init_table, (vals pk.1).length = 8)
    (hbyte : ∀ pk ∈ init_table, ∀ x ∈ vals pk.1, x < 256)
    (hw : ∀ w r v, (E.i2c_smbus_write_byte_data w r v).1 = 0) :
    (ds64br401_probe_init E (State.init w)).1 = 0 ∧
    bus_ops (ds64br401_probe_init E (State.init w)).2.trace = expected_writes vals ∧
    (expected_writes vals).length = 40 ∧
    ∀ pk ∈ init_table, ∀ c, c < 8 →
      (expected_writes vals).filter (Op.targets (ds64br401_chan_reg c pk.2).toNat) =
        [Op.write (ds64br401_chan_reg c pk.2).toNat ((vals pk.1).getD c 0)] := by
  have h := probe_init_ok E vals hf hw (State.init w)
  refine ⟨h.1, ?_, ?_, ?_⟩
  · rw [h.2]
    simp only [State.init, List.nil_append, bus_ops_init_calls, expected_writes]
    refine List.flatMap_congr ?_
    intro pk hpk
    refine List.map_congr_left ?_
    intro c _
    rw [getD_mod_of_bytes _ (hbyte pk hpk)]
  · simp [expected_writes, init_table, range_eight]
  · intro pk hpk c hc
    simp only [init_table, List.mem_cons, List.mem_singleton, List.not_mem_nil, or_false] at hpk
    simp only [expected_writes, init_table, range_eight, List.flatMap_cons, List.flatMap_nil,
      List.map_cons, List.map_nil, List.append_nil, List.cons_append, List.nil_append]
    interval_cases c <;> rcases hpk with e | e | e | e | e <;> subst e <;> rfl

theorem sampleEnv_fetch (rst : Int) (bad : Option (Nat × Int)) :
    ∀ pk ∈ init_table, ∀ w,
      ((sampleEnv rst sampleCells bad).of_property_read_u32_array w pk.1 8).1
        = (0, sampleVals pk.1) := by
  intro pk hpk w
  simp only [init_table, List.mem_cons, List.mem_singleton, List.not_mem_nil, or_false] at hpk
  rcases hpk with e | e | e | e | e <;> subst e <;> rfl

theorem sampleVals_length : ∀ pk ∈ init_table, (sampleVals pk.1).length = 8 := by
  intro pk hpk
  simp only [init_table, List.mem_cons, List.mem_singleton, List.not_mem_nil, or_false] at hpk
  rcases hpk with e | e | e | e | e <;> subst e <;> rfl

theorem sampleVals_bytes : ∀ pk ∈ init_table, ∀ x ∈ sampleVals pk.1, x < 256 := by
  intro pk hpk
  simp only [init_table, List.mem_cons, List.mem_singleton, List.not_mem_nil, or_false] at hpk
  rcases hpk with e | e | e | e | e <;> subst e <;> decide

/-- Witness for C1 on the sample device tree: the phase returns `0` and the
first and last of its forty writes are idle-threshold of channel 0 (value 1
to `0x12`) and dem of channel 7 (value 55 to `0x43`). -/
theorem configure_completeness_witness :
    ((ds64br401_probe_init (sampleEnv 0xa0 sampleCells none) (State.init ())).1 = 0 ∧
     bus_ops (ds64br401_probe_init (sampleEnv 0xa0 sampleCells none) (State.init ())).2.trace
       = expected_writes sampleVals) ∧
    (expected_writes sampleVals).head? = some (Op.write 0x12 1) ∧
    (expected_writes sampleVals).getLast? = some (Op.write 0x43 55) :=
  ⟨⟨(configure_completeness (sampleEnv 0xa0 sampleCells none) () sampleVals
      (sampleEnv_fetch _ _) sampleVals_length sampleVals_bytes (fun _ _ _ => rfl)).1,
    (configure_completeness (sampleEnv 0xa0 sampleCells none) () sampleVals
      (sampleEnv_fetch _ _) sampleVals_length sampleVals_bytes (fun _ _ _ => rfl)).2.1⟩,
   by decide, by decide⟩

/-! ## Values that do not fit a byte -/

/-- C7 as stated fails: on a device tree whose "idle-threshold" cell for
channel 0 is 300, with every bus write succeeding, the configuration phase
reports no error (it returns `0`) and writes the truncated value
`300 mod 256 = 44` to channel 0's idle-threshold register `0x12`. -/
theorem out_of_range_value_truncated :
    ((sampleEnv 0xa0 wideCells none).of_property_read_u32_array () "idle-threshold" 8).1
      = (0, [300, 2, 3, 4, 5, 6, 7, 8]) ∧
    (ds64br401_probe_init (sampleEnv 0xa0 wideCells none) (State.init ())).1 = 0 ∧
    (bus_ops (ds64br401_probe_init (sampleEnv 0xa0 wideCells none)
      (State.init ())).2.trace).head? = some (Op.write 0x12 44) := by
  decide

/-- C7 amended: the driver checks no range.  When every property read
succeeds with eight cells of any 32-bit value and every bus write succeeds, the
configuration phase returns `0` and writes, for each kind and channel, the
cell reduced modulo 256 to the channel's register. -/
theorem configure_writes_low_byte {σ : Type} (E : Env σ) (w : σ) (vals : String → List Nat)
    (hf : ∀ pk ∈ init_table, ∀ w, (E.of_property_read_u32_array w pk.1 8).1 = (0, vals pk.1))
    (_hlen : ∀ pk ∈ init_table, (vals pk.1).length = 8)
    (hw : ∀ w r v, (E.i2c_smbus_write_byte_data w r v).1 = 0) :
    (ds64br401_probe_init E (State.init w)).1 = 0 ∧
    bus_ops (ds64br401_probe_init E (State.init w)).2.trace =
      init_table.flatMap fun pk => (List.range 8).map fun c =>
        Op.write (ds64br401_chan_reg c pk.2).toNat ((vals pk.1).getD c 0 % 256) := by
  have h := probe_init_ok E vals hf hw (State.init w)
  refine ⟨h.1, ?_⟩
  rw [h.2]
  simp only [State.init, List.nil_append, bus_ops_init_calls]

theorem wideEnv_fetch :
    ∀ pk ∈ init_table, ∀ w,
      ((sampleEnv 0xa0 wideCells none).of_property_read_u32_array w pk.1 8).1
        = (0, wideVals pk.1) := by
  intro pk hpk w
  simp only [init_table, List.mem_cons, List.mem_singleton, List.not_mem_nil, or_false] at hpk
  rcases hpk with e | e | e | e | e <;> subst e <;> rfl

theorem wideVals_length : ∀ pk ∈ init_table, (wideVals pk.1).length = 8 := by
  intro pk hpk
  simp only [init_table, List.mem_cons, List.mem_singleton, List.not_mem_nil, or_false] at hpk
  rcases hpk with e | e | e | e | e <;> subst e <;> rfl

/-- Witness for the amended C7 on the wide device tree: cell 300 reaches
register `0x12` as 44, cell 4294967295 reaches register `0x43` as 255. -/
theorem configure_writes_low_byte_witness :
    ((ds64br401_probe_init (sampleEnv 0xa0 wideCells none) (State.init ())).1 = 0 ∧
     bus_ops (ds64br401_probe_init (sampleEnv 0xa0 wideCells none) (State.init ())).2.trace =
      init_table.flatMap fun pk => (List.range 8).map fun c =>
        Op.write (ds64br401_chan_reg c pk.2).toNat ((wideVals pk.1).getD c 0 % 256)) ∧
    (wideVals "idle-threshold").getD 0 0 % 256 = 44 ∧
    (wideVals "dem").getD 7 0 % 256 = 255 :=
  ⟨configure_writes_low_byte (sampleEnv 0xa0 wideCells none) () wideVals
      wideEnv_fetch wideVals_length (fun _ _ _ => rfl),
   by decide, by decide⟩

/-! ## The configuration loop when an operation fails -/

theorem to_u8_chan_reg (c : Nat) (k : Int) (hc : c < 8) (hk : k ∈ kind_offsets) :
    to_u8 (ds64br401_chan_reg c k) = (ds64br401_chan_reg c k).toNat := by
  simp only [kind_offsets, List.mem_cons, List.mem_singleton, List.not_mem_nil, or_false] at hk
  interval_cases c <;> rcases hk with h | h | h | h | h <;> subst h <;> decide

/-- When the property read fails with `e`, a loop that still has an index to
process returns `e` having logged only that read. -/
theorem INIT_loop_fetch_fails {σ : Type} (E : Env σ) (prop : String) (_reg : Int)
    (i : Nat) (is : List Nat) (e : Int)
    (hfe : ∀ w, (E.of_property_read_u32_array w prop 8).1.1 = e) (he : e ≠ 0)
    (s : State σ) :
    (DS64BR401_INIT_loop E prop _reg (i :: is) s).1 = e ∧
    (DS64BR401_INIT_loop E prop _reg (i :: is) s).2.trace = s.trace ++ [⟨Op.fetch prop, e⟩] := by
  simp [DS64BR401_INIT_loop, of_property_read_u32_array, hfe, he]

/-- When the property reads succeed with cells `vals`, the writes for the
indices in `a` succeed and the write for index `i` fails with `e`, the loop over
`a ++ i :: b` returns `e` right after that write: nothing is issued for `b`. -/
theorem INIT_loop_write_fails {σ : Type} (E : Env σ) (prop : String) (_reg : Int)
    (vals : List Nat) (a : List Nat) (i : Nat) (b : List Nat) (e : Int)
    (hf : ∀ w, (E.of_property_read_u32_array w prop 8).1 = (0, vals))
    (hwa : ∀ w v, ∀ j ∈ a,
      (E.i2c_smbus_write_byte_data w (to_u8 (ds64br401_chan_reg j _reg)) v).1 = 0)
    (hwi : ∀ w v, (E.i2c_smbus_write_byte_data w (to_u8 (ds64br401_chan_reg i _reg)) v).1 = e)
    (he : e ≠ 0) (s : State σ) :
    (DS64BR401_INIT_loop E prop _reg (a ++ i :: b) s).1 = e ∧
    (DS64BR401_INIT_loop E prop _reg (a ++ i :: b) s).2.trace =
      s.trace ++ a.flatMap (iter_calls prop _reg vals) ++
        [⟨Op.fetch prop, 0⟩,
         ⟨Op.write (to_u8 (ds64br401_chan_reg i _reg)) (vals.getD i 0 % 256), e⟩] := by
  have ha := INIT_loop_ok E prop _reg vals a hf hwa s
  rw [INIT_loop_append]
  simp only [ha.1, ne_eq, not_true_eq_false, if_false]
  simp only [DS64BR401_INIT_loop, of_property_read_u32_array, ds64br401_write, hf, hwi, he,
    val_getD_to_u8, ha.2, ne_eq, not_true_eq_false, not_false_eq_true, if_false, if_true,
    List.append_assoc, List.cons_append, List.nil_append, and_self]

theorem init_trace {σ : Type} (w : σ) : (State.init w).trace = [] := rfl

theorem mem_eight (j : Nat) (h : j ∈ [0, 1, 2, 3, 4, 5, 6, 7]) : j < 8 := by
  simp only [List.mem_cons, List.mem_singleton, List.not_mem_nil, or_false] at h
  omega

/-- C8: when the reads of "idle-threshold" and "idle-rate" yield valid arrays,
every bus write succeeds and the read of "eq" fails with `e`, the
configuration phase returns `e`; its last call is that failed read; its bus
transfers are exactly the sixteen writes for idle-threshold and idle-rate,
channels `0..7` each, and no transfer addresses an eq register. -/
theorem abort_on_eq_fetch_failure {σ : Type} (E : Env σ) (w : σ) (vals : String → List Nat)
    (e : Int)
    (hf : ∀ pk ∈ init_table.take 2, ∀ w,
      (E.of_property_read_u32_array w pk.1 8).1 = (0, vals pk.1))
    (_hlen : ∀ pk ∈ init_table.take 2, (vals pk.1).length = 8)
    (hbyte : ∀ pk ∈ init_table.take 2, ∀ x ∈ vals pk.1, x < 256)
    (hfe : ∀ w, (E.of_property_read_u32_array w "eq" 8).1.1 = e) (he : e ≠ 0)
    (hw : ∀ w r v, (E.i2c_smbus_write_byte_data w r v).1 = 0) :
    (ds64br401_probe_init E (State.init w)).1 = e ∧
    (ds64br401_probe_init E (State.init w)).2.trace.getLast? = some ⟨Op.fetch "eq", e⟩ ∧
    bus_ops (ds64br401_probe_init E (State.init w)).2.trace =
      ((init_table.take 2).flatMap fun pk => (List.range 8).map fun c =>
        Op.write (ds64br401_chan_reg c pk.2).toNat ((vals pk.1).getD c 0)) ∧
    (bus_ops (ds64br401_probe_init E (State.init w)).2.trace).length = 16 ∧
    ∀ c, c < 8 →
      (bus_ops (ds64br401_probe_init E (State.init w)).2.trace).filter
        (Op.targets (ds64br401_chan_reg c DS64BR401_EQ).toNat) = [] := by
  have hf1 := hf ("idle-threshold", DS64BR401_IDLETHRESH) (by simp [init_table])
  have hf2 := hf ("idle-rate", DS64BR401_IDLERATE) (by simp [init_table])
  have m1 := getD_mod_of_bytes _ (hbyte ("idle-threshold", DS64BR401_IDLETHRESH)
    (by simp [init_table]))
  have m2 := getD_mod_of_bytes _ (hbyte ("idle-rate", DS64BR401_IDLERATE)
    (by simp [init_table]))
  have h1 := INIT_loop_ok E "idle-threshold" DS64BR401_IDLETHRESH _ [0, 1, 2, 3, 4, 5, 6, 7]
    hf1 (fun w v _ _ => hw w _ v) (State.init w)
  have h2 := INIT_loop_ok E "idle-rate" DS64BR401_IDLERATE _ [0, 1, 2, 3, 4, 5, 6, 7]
    hf2 (fun w v _ _ => hw w _ v)
    (DS64BR401_INIT_loop E "idle-threshold" DS64BR401_IDLETHRESH [0, 1, 2, 3, 4, 5, 6, 7]
      (State.init w)).2
  have h3 := INIT_loop_fetch_fails E "eq" DS64BR401_EQ 0 [1, 2, 3, 4, 5, 6, 7] e hfe he
    (DS64BR401_INIT_loop E "idle-rate" DS64BR401_IDLERATE [0, 1, 2, 3, 4, 5, 6, 7]
      (DS64BR401_INIT_loop E "idle-threshold" DS64BR401_IDLETHRESH [0, 1, 2, 3, 4, 5, 6, 7]
        (State.init w)).2).2
  have hr : ds64br401_probe_init E (State.init w) =
      DS64BR401_INIT_loop E "eq" DS64BR401_EQ [0, 1, 2, 3, 4, 5, 6, 7]
        (DS64BR401_INIT_loop E "idle-rate" DS64BR401_IDLERATE [0, 1, 2, 3, 4, 5, 6, 7]
          (DS64BR401_INIT_loop E "idle-threshold" DS64BR401_IDLETHRESH [0, 1, 2, 3, 4, 5, 6, 7]
            (State.init w)).2).2 := by
    simp only [ds64br401_probe_init, DS64BR401_INIT, range_eight, h1.1, h2.1, h3.1, he, ne_eq,
      not_true_eq_false, not_false_eq_true, if_false, if_true]
  have ht := h3.2
  rw [h2.2, h1.2] at ht
  simp only [init_trace, List.nil_append, List.flatMap_cons, List.flatMap_nil, iter_calls, m1,
    m2, List.cons_append, List.append_nil] at ht
  rw [hr]
  refine ⟨h3.1, ?_, ?_, ?_, ?_⟩
  · rw [ht]; rfl
  · rw [ht]; rfl
  · rw [ht]; rfl
  · intro c hc
    rw [ht]
    interval_cases c <;> rfl

/-- Witness for C8: the "eq" property holds seven cells, so its read fails
with `-EOVERFLOW` (-75); the phase returns -75 after sixteen writes. -/
theorem abort_on_eq_fetch_failure_witness :
    (ds64br401_probe_init (sampleEnv 0xa0 shortEqCells none) (State.init ())).1 = -75 ∧
    (ds64br401_probe_init (sampleEnv 0xa0 shortEqCells none) (State.init ())).2.trace.getLast?
      = some ⟨Op.fetch "eq", -75⟩ ∧
    (bus_ops (ds64br401_probe_init (sampleEnv 0xa0 shortEqCells none)
      (State.init ())).2.trace).length = 16 :=
  have h := abort_on_eq_fetch_failure (sampleEnv 0xa0 shortEqCells none) () sampleVals (-75)
    (by
      intro pk hpk w
      simp only [init_table, List.take, List.mem_cons, List.mem_singleton, List.not_mem_nil,
        or_false] at hpk
      rcases hpk with e | e <;> subst e <;> rfl)
    (by
      intro pk hpk
      simp only [init_table, List.take, List.mem_cons, List.mem_singleton, List.not_mem_nil,
        or_false] at hpk
      rcases hpk with e | e <;> subst e <;> rfl)
    (by
      intro pk hpk
      simp only [init_table, List.take, List.mem_cons, List.mem_singleton, List.not_mem_nil,
        or_false] at hpk
      rcases hpk with e | e <;> subst e <;> decide)
    (fun _ => rfl) (by decide) (fun _ _ _ => rfl)
  ⟨h.1, h.2.1, h.2.2.2.1⟩

/-- C9: when the property reads of the first four kinds yield valid arrays,
the writes for idle-threshold, idle-rate and eq (channels `0..7`) and for vod
channels `0..2` succeed, and the write to channel 3's vod register fails with
`e`, the configuration phase returns `e` with that write as its last call.
Its bus transfers are exactly the writes for idle-threshold, idle-rate, eq
(channels `0..7`) and vod channels `0..3`; none addresses a vod register of
channels `4..7` or any dem register. -/
theorem abort_on_vod3_write_failure {σ : Type} (E : Env σ) (w : σ) (vals : String → List Nat)
    (e : Int)
    (hf : ∀ pk ∈ init_table.take 4, ∀ w,
      (E.of_property_read_u32_array w pk.1 8).1 = (0, vals pk.1))
    (_hlen : ∀ pk ∈ init_table.take 4, (vals pk.1).length = 8)
    (hbyte : ∀ pk ∈ init_table.take 4, ∀ x ∈ vals pk.1, x < 256)
    (hw : ∀ pk ∈ init_table.take 3, ∀ c, c < 8 → ∀ w v,
      (E.i2c_smbus_write_byte_data w (ds64br401_chan_reg c pk.2).toNat v).1 = 0)
    (hwv : ∀ c, c < 3 → ∀ w v,
      (E.i2c_smbus_write_byte_data w (ds64br401_chan_reg c DS64BR401_VOD).toNat v).1 = 0)
    (hw3 : ∀ w v,
      (E.i2c_smbus_write_byte_data w (ds64br401_chan_reg 3 DS64BR401_VOD).toNat v).1 = e)
    (he : e ≠ 0) :
    (ds64br401_probe_init E (State.init w)).1 = e ∧
    (ds64br401_probe_init E (State.init w)).2.trace.getLast? =
      some ⟨Op.write (ds64br401_chan_reg 3 DS64BR401_VOD).toNat ((vals "vod").getD 3 0), e⟩ ∧
    bus_ops (ds64br401_probe_init E (State.init w)).2.trace =
      ((init_table.take 3).flatMap fun pk => (List.range 8).map fun c =>
        Op.write (ds64br401_chan_reg c pk.2).toNat ((vals pk.1).getD c 0)) ++
      (List.range 4).map (fun c =>
        Op.write (ds64br401_chan_reg c DS64BR401_VOD).toNat ((vals "vod").getD c 0)) ∧
    (∀ c, 4 ≤ c → c < 8 →
      (bus_ops (ds64br401_probe_init E (State.init w)).2.trace).filter
        (Op.targets (ds64br401_chan_reg c DS64BR401_VOD).toNat) = []) ∧
    ∀ c, c < 8 →
      (bus_ops (ds64br401_probe_init E (State.init w)).2.trace).filter
        (Op.targets (ds64br401_chan_reg c DS64BR401_DEM).toNat) = [] := by
  have hf1 := hf ("idle-threshold", DS64BR401_IDLETHRESH) (by simp [init_table])
  have hf2 := hf ("idle-rate", DS64BR401_IDLERATE) (by simp [init_table])
  have hf3 := hf ("eq", DS64BR401_EQ) (by simp [init_table])
  have hf4 := hf ("vod", DS64BR401_VOD) (by simp [init_table])
  have m1 := getD_mod_of_bytes _ (hbyte ("idle-threshold", DS64BR401_IDLETHRESH)
    (by simp [init_table]))
  have m2 := getD_mod_of_bytes _ (hbyte ("idle-rate", DS64BR401_IDLERATE)
    (by simp [init_table]))
  have m3 := getD_mod_of_bytes _ (hbyte ("eq", DS64BR401_EQ) (by simp [init_table]))
  have m4 := getD_mod_of_bytes _ (hbyte ("vod", DS64BR401_VOD) (by simp [init_table]))
  have W : ∀ pk ∈ init_table.take 3, ∀ w v, ∀ j ∈ [0, 1, 2, 3, 4, 5, 6, 7],
      (E.i2c_smbus_write_byte_data w (to_u8 (ds64br401_chan_reg j pk.2)) v).1 = 0 := by
    intro pk hpk w v j hj
    have hk : pk.2 ∈ kind_offsets := by
      simp only [init_table, List.take, List.mem_cons, List.mem_singleton, List.not_mem_nil,
        or_false] at hpk
      rcases hpk with e | e | e <;> subst e <;> decide
    rw [to_u8_chan_reg j pk.2 (mem_eight j hj) hk]
    exact hw pk hpk j (mem_eight j hj) w v
  have h1 := INIT_loop_ok E "idle-threshold" DS64BR401_IDLETHRESH _ [0, 1, 2, 3, 4, 5, 6, 7]
    hf1 (W ("idle-threshold", DS64BR401_IDLETHRESH) (by simp [init_table])) (State.init w)
  have h2 := INIT_loop_ok E "idle-rate" DS64BR401_IDLERATE _ [0, 1, 2, 3, 4, 5, 6, 7]
    hf2 (W ("idle-rate", DS64BR401_IDLERATE) (by simp [init_table]))
    (DS64BR401_INIT_loop E "idle-threshold" DS64BR401_IDLETHRESH [0, 1, 2, 3, 4, 5, 6, 7]
      (State.init w)).2
  have h3 := INIT_loop_ok E "eq" DS64BR401_EQ _ [0, 1, 2, 3, 4, 5, 6, 7]
    hf3 (W ("eq", DS64BR401_EQ) (by simp [init_table]))
    (DS64BR401_INIT_loop E "idle-rate" DS64BR401_IDLERATE [0, 1, 2, 3, 4, 5, 6, 7]
      (DS64BR401_INIT_loop E "idle-threshold" DS64BR401_IDLETHRESH [0, 1, 2, 3, 4, 5, 6, 7]
        (State.init w)).2).2
  have h4 := INIT_loop_write_fails E "vod" DS64BR401_VOD _ [0, 1, 2] 3 [4, 5, 6, 7] e hf4
    (by
      intro w v j hj
      have hj3 : j < 3 := by
        simp only [List.mem_cons, List.mem_singleton, List.not_mem_nil, or_false] at hj
        omega
      rw [to_u8_chan_reg j _ (by omega) (by decide)]
      exact hwv j hj3 w v)
    (by
      intro w v
      rw [to_u8_chan_reg 3 _ (by decide) (by decide)]
      exact hw3 w v)
    he
    (DS64BR401_INIT_loop E "eq" DS64BR401_EQ [0, 1, 2, 3, 4, 5, 6, 7]
      (DS64BR401_INIT_loop E "idle-rate" DS64BR401_IDLERATE [0, 1, 2, 3, 4, 5, 6, 7]
        (DS64BR401_INIT_loop E "idle-threshold" DS64BR401_IDLETHRESH [0, 1, 2, 3, 4, 5, 6, 7]
          (State.init w)).2).2).2
  simp only [List.cons_append, List.nil_append] at h4
  have hr : ds64br401_probe_init E (State.init w) =
      DS64BR401_INIT_loop E "vod" DS64BR401_VOD [0, 1, 2, 3, 4, 5, 6, 7]
        (DS64BR401_INIT_loop E "eq" DS64BR401_EQ [0, 1, 2, 3, 4, 5, 6, 7]
          (DS64BR401_INIT_loop E "idle-rate" DS64BR401_IDLERATE [0, 1, 2, 3, 4, 5, 6, 7]
            (DS64BR401_INIT_loop E "idle-threshold" DS64BR401_IDLETHRESH
              [0, 1, 2, 3, 4, 5, 6, 7] (State.init w)).2).2).2 := by
    simp only [ds64br401_probe_init, DS64BR401_INIT, range_eight, h1.1, h2.1, h3.1, h4.1, he,
      ne_eq, not_true_eq_false, not_false_eq_true, if_false, if_true]
  have ht := h4.2
  rw [h3.2, h2.2, h1.2] at ht
  simp only [init_trace, List.nil_append, List.flatMap_cons, List.flatMap_nil, iter_calls, m1,
    m2, m3, m4, List.cons_append, List.append_nil, List.append_assoc] at ht
  rw [hr]
  refine ⟨h4.1, ?_, ?_, ?_, ?_⟩
  · rw [ht]; rfl
  · rw [ht]; rfl
  · intro c h4c hc
    rw [ht]
    interval_cases c <;> rfl
  · intro c hc
    rw [ht]
    interval_cases c <;> rfl

/-- Witness for C9: the bus refuses writes to register `0x25` (vod of channel
3) with `-EIO` (-5); the phase returns -5 after 28 writes, the last to `0x25`. -/
theorem abort_on_vod3_write_failure_witness :
    (ds64br401_probe_init (sampleEnv 0xa0 sampleCells (some (0x25, -5))) (State.init ())).1
      = -5 ∧
    (ds64br401_probe_init (sampleEnv 0xa0 sampleCells (some (0x25, -5)))
      (State.init ())).2.trace.getLast? = some ⟨Op.write 0x25 35, -5⟩ ∧
    (bus_ops (ds64br401_probe_init (sampleEnv 0xa0 sampleCells (some (0x25, -5)))
      (State.init ())).2.trace).length = 28 :=
  have h := abort_on_vod3_write_failure (sampleEnv 0xa0 sampleCells (some (0x25, -5))) ()
    sampleVals (-5)
    (fun pk hpk => sampleEnv_fetch _ _ pk (List.mem_of_mem_take hpk))
    (fun pk hpk => sampleVals_length pk (List.mem_of_mem_take hpk))
    (fun pk hpk => sampleVals_bytes pk (List.mem_of_mem_take hpk))
    (by
      intro pk hpk c hc w v
      simp only [init_table, List.take, List.mem_cons, List.mem_singleton, List.not_mem_nil,
        or_false] at hpk
      rcases hpk with e | e | e <;> subst e <;> interval_cases c <;> rfl)
    (by intro c hc w v; interval_cases c <;> rfl)
    (fun _ _ => rfl) (by decide)
  ⟨h.1, h.2.1, by rw [h.2.2.1]; rfl⟩

/-! ## Fail-fast behaviour of probe -/

theorem clean_snoc (t : List Call) (c : Call) (h : Clean t) (hc : c.failed = false)
    (hp : c.op ≠ Op.pm_runtime_enable) : Clean (t ++ [c]) := by
  intro d hd
  rcases List.mem_append.mp hd with hd | hd
  · exact h d hd
  · rw [List.mem_singleton] at hd; subst hd; exact ⟨hc, hp⟩

theorem outcome_zero (t : List Call) (h : Outcome 0 t) : Clean t := by
  rcases h with h | h
  · exact h.2
  · exact absurd rfl h.1

theorem outcome_of_eq_zero (ret : Int) (t : List Call) (h : Outcome ret t) (h0 : ret = 0) :
    Clean t := by
  subst h0; exact outcome_zero t h

theorem write_outcome {σ : Type} (E : Env σ) (s : State σ) (reg val : Int)
    (h : Clean s.trace) :
    Outcome (ds64br401_write E s reg val).1 (ds64br401_write E s reg val).2.trace := by
  simp only [ds64br401_write]
  by_cases hr : (E.i2c_smbus_write_byte_data s.world (to_u8 reg) (to_u8 val)).1 = 0
  · exact Or.inl ⟨hr, clean_snoc _ _ h (by simp [Call.failed, hr]) (by simp)⟩
  · exact Or.inr ⟨hr, _, _, rfl, h, by simp [Call.failed, hr], rfl, by simp⟩

theorem fetch_outcome {σ : Type} (E : Env σ) (s : State σ) (prop : String) (sz : Nat)
    (h : Clean s.trace) :
    Outcome (of_property_read_u32_array E s prop sz).1
      (of_property_read_u32_array E s prop sz).2.2.trace := by
  simp only [of_property_read_u32_array]
  by_cases hr : (E.of_property_read_u32_array s.world prop sz).1.1 = 0
  · exact Or.inl ⟨hr, clean_snoc _ _ h (by simp [Call.failed, hr]) (by simp)⟩
  · exact Or.inr ⟨hr, _, _, rfl, h, by simp [Call.failed, hr], rfl, by simp⟩

theorem reset_outcome {σ : Type} (E : Env σ) (s : State σ) (h : Clean s.trace) :
    Outcome (ds64br401_reset E s).1 (ds64br401_reset E s).2.trace := by
  unfold ds64br401_reset
  simp only
  split
  · rename_i hneg
    refine Or.inr ⟨by omega, _, _, rfl, h, ?_, rfl, by simp⟩
    simp only [ds64br401_read] at hneg
    simp [Call.failed, ds64br401_read, hneg]
  · rename_i hneg
    apply write_outcome
    simp only [ds64br401_read] at hneg
    exact clean_snoc _ _ h (by simp [Call.failed, ds64br401_read, hneg]) (by simp)

theorem power_outcome {σ : Type} (E : Env σ) (s : State σ) (on_ : Int) (h : Clean s.trace) :
    Outcome (ds64br401_power E s on_).1 (ds64br401_power E s on_).2.trace :=
  write_outcome E s _ _ h

theorem INIT_loop_outcome {σ : Type} (E : Env σ) (prop : String) (_reg : Int) (is : List Nat)
    (s : State σ) (h : Clean s.trace) :
    Outcome (DS64BR401_INIT_loop E prop _reg is s).1
      (DS64BR401_INIT_loop E prop _reg is s).2.trace := by
  induction is generalizing s with
  | nil => exact Or.inl ⟨rfl, h⟩
  | cons i is ih =>
    simp only [DS64BR401_INIT_loop]
    have hf := fetch_outcome E s prop 8 h
    split
    · exact hf
    · rename_i h0
      have hc := outcome_of_eq_zero _ _ hf (by simpa using h0)
      have hw := write_outcome E (of_property_read_u32_array E s prop 8).2.2
        (ds64br401_chan_reg i _reg)
        ((of_property_read_u32_array E s prop 8).2.1.getD i 0) hc
      split
      · exact hw
      · rename_i h1
        exact ih _ (outcome_of_eq_zero _ _ hw (by simpa using h1))

theorem probe_init_outcome {σ : Type} (E : Env σ) (s : State σ) (h : Clean s.trace) :
    Outcome (ds64br401_probe_init E s).1 (ds64br401_probe_init E s).2.trace := by
  simp only [ds64br401_probe_init, DS64BR401_INIT]
  have h1 := INIT_loop_outcome E "idle-threshold" DS64BR401_IDLETHRESH (List.range 8) s h
  split
  · exact h1
  · rename_i e1
    have h2 := INIT_loop_outcome E "idle-rate" DS64BR401_IDLERATE (List.range 8) _
      (outcome_of_eq_zero _ _ h1 (by simpa using e1))
    split
    · exact h2
    · rename_i e2
      have h3 := INIT_loop_outcome E "eq" DS64BR401_EQ (List.range 8) _
        (outcome_of_eq_zero _ _ h2 (by simpa using e2))
      split
      · exact h3
      · rename_i e3
        have h4 := INIT_loop_outcome E "vod" DS64BR401_VOD (List.range 8) _
          (outcome_of_eq_zero _ _ h3 (by simpa using e3))
        split
        · exact h4
        · rename_i e4
          exact INIT_loop_outcome E "dem" DS64BR401_DEM (List.range 8) _
            (outcome_of_eq_zero _ _ h4 (by simpa using e4))

theorem INIT_loop_length {σ : Type} (E : Env σ) (prop : String) (_reg : Int) (is : List Nat)
    (s : State σ) (h : (DS64BR401_INIT_loop E prop _reg is s).1 = 0) :
    (DS64BR401_INIT_loop E prop _reg is s).2.trace.length = s.trace.length + 2 * is.length := by
  induction is generalizing s with
  | nil => simp [DS64BR401_INIT_loop]
  | cons i is ih =>
    simp only [DS64BR401_INIT_loop] at h ⊢
    split at h
    · rename_i e; exact absurd h e
    · split at h
      · rename_i e; exact absurd h e
      · rename_i e0 e1
        simp only [e0, e1, if_false]
        rw [ih _ h]
        simp [ds64br401_write, of_property_read_u32_array]
        omega

theorem probe_init_length {σ : Type} (E : Env σ) (s : State σ)
    (h : (ds64br401_probe_init E s).1 = 0) :
    (ds64br401_probe_init E s).2.trace.length = s.trace.length + 80 := by
  simp only [ds64br401_probe_init, DS64BR401_INIT] at h ⊢
  split at h
  · rename_i e; exact absurd h e
  · split at h
    · rename_i e; exact absurd h e
    · split at h
      · rename_i e; exact absurd h e
      · split at h
        · rename_i e; exact absurd h e
        · rename_i e1 e2 e3 e4
          simp only [e1, e2, e3, e4, if_false]
          rw [INIT_loop_length _ _ _ _ _ h,
            INIT_loop_length _ _ _ _ _ (by simpa using e4),
            INIT_loop_length _ _ _ _ _ (by simpa using e3),
            INIT_loop_length _ _ _ _ _ (by simpa using e2),
            INIT_loop_length _ _ _ _ _ (by simpa using e1)]
          simp

/-- The shape of probe from a clean log: on return `0` the log is a clean
log followed by the single `pm_runtime_enable`; on a nonzero return the last
call failed with that code and auto-suspend was never enabled. -/
theorem probe_shape {σ : Type} (E : Env σ) (s : State σ) (h : Clean s.trace) :
    ((ds64br401_probe E s).1 = 0 ∧
      ∃ t, (ds64br401_probe E s).2.trace = t ++ [⟨Op.pm_runtime_enable, 0⟩] ∧ Clean t ∧
        t.length = s.trace.length + 84) ∨
    ((ds64br401_probe E s).1 ≠ 0 ∧
      ∃ t c, (ds64br401_probe E s).2.trace = t ++ [c] ∧ Clean t ∧ c.failed = true ∧
        c.ret = (ds64br401_probe E s).1 ∧ c.op ≠ Op.pm_runtime_enable) := by
  have fails : ∀ (r : Int × State σ), Outcome r.1 r.2.trace → r.1 ≠ 0 →
      r.1 ≠ 0 ∧ ∃ t c, r.2.trace = t ++ [c] ∧ Clean t ∧ c.failed = true ∧
        c.ret = r.1 ∧ c.op ≠ Op.pm_runtime_enable := by
    intro r ho hne
    rcases ho with ho | ho
    · exact absurd ho.1 hne
    · exact ho
  have h1 := reset_outcome E s h
  simp only [ds64br401_probe]
  split
  · rename_i e1; exact Or.inr (fails _ h1 e1)
  · rename_i e1
    have e1 : (ds64br401_reset E s).1 = 0 := by simpa using e1
    have h2 := power_outcome E (ds64br401_reset E s).2 1 (outcome_of_eq_zero _ _ h1 e1)
    split
    · rename_i e2; exact Or.inr (fails _ h2 e2)
    · rename_i e2
      have e2 : (ds64br401_power E (ds64br401_reset E s).2 1).1 = 0 := by simpa using e2
      have h3 := write_outcome E (ds64br401_power E (ds64br401_reset E s).2 1).2
        DS64BR401_PWDN_CTL 0x1 (outcome_of_eq_zero _ _ h2 e2)
      split
      · rename_i e3; exact Or.inr (fails _ h3 e3)
      · rename_i e3
        have e3 : (ds64br401_write E (ds64br401_power E (ds64br401_reset E s).2 1).2
            DS64BR401_PWDN_CTL 0x1).1 = 0 := by simpa using e3
        have h4 := probe_init_outcome E (ds64br401_write E
          (ds64br401_power E (ds64br401_reset E s).2 1).2 DS64BR401_PWDN_CTL 0x1).2
          (outcome_of_eq_zero _ _ h3 e3)
        split
        · rename_i e4; exact Or.inr (fails _ h4 e4)
        · rename_i e4
          have e4 : (ds64br401_probe_init E (ds64br401_write E
              (ds64br401_power E (ds64br401_reset E s).2 1).2 DS64BR401_PWDN_CTL 0x1).2).1 = 0 := by
            simpa using e4
          refine Or.inl ⟨rfl, _, rfl, outcome_of_eq_zero _ _ h4 e4, ?_⟩
          rw [probe_init_length _ _ e4]
          have hreset : (ds64br401_reset E s).2.trace.length = s.trace.length + 2 := by
            unfold ds64br401_reset at e1 ⊢
            simp only at e1 ⊢
            split at e1
            · rename_i hneg; omega
            · rename_i hneg
              simp only [hneg, if_false]
              simp [ds64br401_write, ds64br401_read]
          simp only [ds64br401_write, ds64br401_power, List.length_append, List.length_singleton,
            hreset]

/-- C10: probe is fail-fast on every bus and configuration source.  It
returns `0` only if none of the calls it made failed (the reset read, the reset
write, the power-on write, the power-down-control write, the forty property
reads and the forty channel writes: 84 calls and the enabling of
auto-suspend).  When it returns a nonzero code, the last call it made is the
first and only one that failed, and the code returned is the code of that
call.  `pm_runtime_enable` is called if and only if probe returns `0`. -/
theorem probe_fail_fast {σ : Type} (E : Env σ) (w : σ) :
    ((ds64br401_probe E (State.init w)).1 = 0 →
      (∀ c ∈ (ds64br401_probe E (State.init w)).2.trace, c.failed = false) ∧
      (ds64br401_probe E (State.init w)).2.trace.length = 85) ∧
    ((ds64br401_probe E (State.init w)).1 ≠ 0 →
      ∃ t c, (ds64br401_probe E (State.init w)).2.trace = t ++ [c] ∧
        (∀ d ∈ t, d.failed = false) ∧ c.failed = true ∧
        c.ret = (ds64br401_probe E (State.init w)).1) ∧
    (Op.pm_runtime_enable ∈ (ds64br401_probe E (State.init w)).2.trace.map Call.op ↔
      (ds64br401_probe E (State.init w)).1 = 0) := by
  have hs := probe_shape E (State.init w) (by intro c hc; simp [State.init] at hc)
  rcases hs with ⟨h0, t, ht, hclean, hlen⟩ | ⟨hne, t, c, ht, hclean, hfail, hret, hop⟩
  · refine ⟨fun _ => ⟨?_, ?_⟩, fun hne => absurd h0 hne, ?_⟩
    · intro c hc
      rw [ht] at hc
      rcases List.mem_append.mp hc with hc | hc
      · exact (hclean c hc).1
      · rw [List.mem_singleton] at hc; subst hc; rfl
    · rw [ht]; simp [hlen, State.init]
    · rw [ht]; simp [h0]
  · refine ⟨fun h0 => absurd h0 hne, fun _ => ⟨t, c, ht, fun d hd => (hclean d hd).1, hfail, hret⟩,
      ?_⟩
    rw [ht]
    constructor
    · intro hmem
      rw [List.map_append, List.mem_append] at hmem
      rcases hmem with hmem | hmem
      · rcases List.mem_map.mp hmem with ⟨d, hd, hdo⟩
        exact absurd hdo (hclean d hd).2
      · simp only [List.map_cons, List.map_nil, List.mem_singleton] at hmem
        exact absurd hmem.symm hop
    · intro h0; exact absurd h0 hne

/-- Probe evaluated on the sample worlds: with everything succeeding it
returns `0` after 85 calls, 44 of them bus transfers, the last one
`pm_runtime_enable`; with writes to `0x25` refused it returns -5 and with a
seven-cell "eq" property -75, in both cases without enabling auto-suspend; with
a failing reset read (-6) it returns -6 after that single call. -/
theorem probe_sample_runs :
    ((ds64br401_probe (sampleEnv 0xa0 sampleCells none) (State.init ())).1 = 0 ∧
     (ds64br401_probe (sampleEnv 0xa0 sampleCells none) (State.init ())).2.trace.length = 85 ∧
     (bus_ops (ds64br401_probe (sampleEnv 0xa0 sampleCells none)
       (State.init ())).2.trace).length = 44 ∧
     (ds64br401_probe (sampleEnv 0xa0 sampleCells none) (State.init ())).2.trace.getLast?
       = some ⟨Op.pm_runtime_enable, 0⟩) ∧
    ((ds64br401_probe (sampleEnv 0xa0 sampleCells (some (0x25, -5))) (State.init ())).1 = -5 ∧
     (ds64br401_probe (sampleEnv 0xa0 sampleCells (some (0x25, -5)))
       (State.init ())).2.trace.getLast? = some ⟨Op.write 0x25 35, -5⟩) ∧
    ((ds64br401_probe (sampleEnv 0xa0 shortEqCells none) (State.init ())).1 = -75 ∧
     (ds64br401_probe (sampleEnv 0xa0 shortEqCells none) (State.init ())).2.trace.getLast?
       = some ⟨Op.fetch "eq", -75⟩) ∧
    (ds64br401_probe (sampleEnv (-6) sampleCells none) (State.init ())).1 = -6 ∧
    (ds64br401_probe (sampleEnv (-6) sampleCells none) (State.init ())).2.trace
      = [⟨Op.read 0, -6⟩] := by
  decide

/-! ## Failure of reset; suspend and resume -/

/-- C11: reset fails if either its read or its write fails.  When the read of
register `0x00` returns a negative code, reset returns that code and the read
is the only call it made (no write is issued).  When the read succeeds, reset
returns whatever the write returns, in particular the error of a failed
write, and the log is the read followed by that write. -/
theorem reset_failure {σ : Type} (E : Env σ) (w : σ) :
    ((E.i2c_smbus_read_byte_data w 0).1 < 0 →
      (ds64br401_reset E (State.init w)).1 = (E.i2c_smbus_read_byte_data w 0).1 ∧
      (ds64br401_reset E (State.init w)).2.trace =
        [⟨Op.read 0, (E.i2c_smbus_read_byte_data w 0).1⟩]) ∧
    (0 ≤ (E.i2c_smbus_read_byte_data w 0).1 →
      (ds64br401_reset E (State.init w)).1 =
        (E.i2c_smbus_write_byte_data (E.i2c_smbus_read_byte_data w 0).2 0
          (to_u8 (Int.lor (E.i2c_smbus_read_byte_data w 0).1 0x01))).1 ∧
      (ds64br401_reset E (State.init w)).2.trace =
        [⟨Op.read 0, (E.i2c_smbus_read_byte_data w 0).1⟩,
         ⟨Op.write 0 (to_u8 (Int.lor (E.i2c_smbus_read_byte_data w 0).1 0x01)),
           (E.i2c_smbus_write_byte_data (E.i2c_smbus_read_byte_data w 0).2 0
             (to_u8 (Int.lor (E.i2c_smbus_read_byte_data w 0).1 0x01))).1⟩]) := by
  have h8 : to_u8 DS64BR401_RESET = 0 := by decide
  constructor
  · intro hneg
    simp [ds64br401_reset, ds64br401_read, State.init, h8, hneg]
  · intro hpos
    have hnn : ¬ (E.i2c_smbus_read_byte_data w 0).1 < 0 := by omega
    simp [ds64br401_reset, ds64br401_read, ds64br401_write, State.init, h8, hnn]

/-- Reset evaluated on sample buses: a read failing with -6 ends reset with -6
and no write; a write to register `0x00` failing with -5 after a read of `0xa0`
ends reset with -5. -/
theorem reset_failure_samples :
    (ds64br401_reset (sampleEnv (-6) sampleCells none) (State.init ())).1 = -6 ∧
    (ds64br401_reset (sampleEnv (-6) sampleCells none) (State.init ())).2.trace
      = [⟨Op.read 0, -6⟩] ∧
    (ds64br401_reset (sampleEnv 0xa0 sampleCells (some (0, -5))) (State.init ())).1 = -5 ∧
    (ds64br401_reset (sampleEnv 0xa0 sampleCells (some (0, -5))) (State.init ())).2.trace
      = [⟨Op.read 0, 0xa0⟩, ⟨Op.write 0 0xa1, -5⟩] := by
  decide

/-- C12: on a bus whose writes succeed, two suspends in a row both return `0`
and log exactly two calls, each a write of `0xff` to the power-down register
`0x01`; a resume logs exactly one write of `0x00` to register `0x01`.  The
second suspend is not short-circuited. -/
theorem suspend_twice {σ : Type} (E : Env σ) (w : σ)
    (hw : ∀ w r v, (E.i2c_smbus_write_byte_data w r v).1 = 0) :
    (ds64br401_runtime_suspend E (State.init w)).1 = 0 ∧
    (ds64br401_runtime_suspend E (ds64br401_runtime_suspend E (State.init w)).2).1 = 0 ∧
    (ds64br401_runtime_suspend E (ds64br401_runtime_suspend E (State.init w)).2).2.trace =
      [⟨Op.write 0x01 0xff, 0⟩, ⟨Op.write 0x01 0xff, 0⟩] ∧
    (ds64br401_runtime_resume E (State.init w)).2.trace.map Call.op = [Op.write 0x01 0x00] ∧
    (ds64br401_runtime_resume E (State.init w)).1 = 0 := by
  have h1 : to_u8 DS64BR401_PWDN = 1 := by decide
  have h0 : to_u8 0 = 0 := by decide
  have hff : to_u8 0xff = 0xff := by decide
  simp [ds64br401_runtime_suspend, ds64br401_runtime_resume, ds64br401_power, ds64br401_write,
    State.init, h1, h0, hff, hw]

/-- Witness for C12 on the sample bus. -/
theorem suspend_twice_witness :
    (ds64br401_runtime_suspend (sampleEnv 0xa0 sampleCells none)
      (ds64br401_runtime_suspend (sampleEnv 0xa0 sampleCells none) (State.init ())).2).2.trace =
      [⟨Op.write 0x01 0xff, 0⟩, ⟨Op.write 0x01 0xff, 0⟩] :=
  (suspend_twice (sampleEnv 0xa0 sampleCells none) () (fun _ _ _ => rfl)).2.2.1

/-! ## The shape of a successful configuration -/

theorem skeleton_append (a b : List Call) : skeleton (a ++ b) = skeleton a ++ skeleton b := by
  simp [skeleton]

theorem write_trace {σ : Type} (E : Env σ) (s : State σ) (reg val : Int) :
    (ds64br401_write E s reg val).2.trace =
      s.trace ++ [⟨Op.write (to_u8 reg) (to_u8 val), (ds64br401_write E s reg val).1⟩] := rfl

theorem fetch_trace {σ : Type} (E : Env σ) (s : State σ) (prop : String) (sz : Nat) :
    (of_property_read_u32_array E s prop sz).2.2.trace =
      s.trace ++ [⟨Op.fetch prop, (of_property_read_u32_array E s prop sz).1⟩] := rfl

/-- A loop that ran to its end logged, for each index in turn, one property
read and one write to that channel's register, all returning `0`. -/
theorem INIT_loop_skeleton {σ : Type} (E : Env σ) (prop : String) (_reg : Int) (is : List Nat)
    (s : State σ) (h : (DS64BR401_INIT_loop E prop _reg is s).1 = 0) :
    ∃ T, (DS64BR401_INIT_loop E prop _reg is s).2.trace = s.trace ++ T ∧
      skeleton T =
        is.flatMap (fun i => [Op.fetch prop, Op.write (to_u8 (ds64br401_chan_reg i _reg)) 0]) ∧
      ∀ c ∈ T, c.ret = 0 := by
  induction is generalizing s with
  | nil => exact ⟨[], by simp [DS64BR401_INIT_loop], rfl, by simp⟩
  | cons i is ih =>
    simp only [DS64BR401_INIT_loop] at h ⊢
    split at h
    · rename_i e; exact absurd h e
    · split at h
      · rename_i e; exact absurd h e
      · rename_i e0 e1
        simp only [e0, e1, if_false]
        obtain ⟨T, hT, hsk, hret⟩ := ih _ h
        have f0 : (of_property_read_u32_array E s prop 8).1 = 0 := by simpa using e0
        have w0 : (ds64br401_write E (of_property_read_u32_array E s prop 8).2.2
            (ds64br401_chan_reg i _reg)
            ((of_property_read_u32_array E s prop 8).2.1.getD i 0)).1 = 0 := by simpa using e1
        refine ⟨[⟨Op.fetch prop, 0⟩, ⟨Op.write (to_u8 (ds64br401_chan_reg i _reg))
          (to_u8 ((of_property_read_u32_array E s prop 8).2.1.getD i 0)), 0⟩] ++ T, ?_, ?_, ?_⟩
        · rw [hT, write_trace, fetch_trace, f0, w0]
          simp
        · rw [skeleton_append, hsk]; rfl
        · intro c hc
          simp only [List.cons_append, List.nil_append, List.mem_cons] at hc
          rcases hc with hc | hc | hc
          · subst hc; rfl
          · subst hc; rfl
          · exact hret c hc

/-- A configuration phase that returned `0` logged exactly the eighty calls of
`init_skeleton`, all returning `0`. -/
theorem probe_init_skeleton {σ : Type} (E : Env σ) (s : State σ)
    (h : (ds64br401_probe_init E s).1 = 0) :
    ∃ T, (ds64br401_probe_init E s).2.trace = s.trace ++ T ∧ skeleton T = init_skeleton ∧
      ∀ c ∈ T, c.ret = 0 := by
  simp only [ds64br401_probe_init, DS64BR401_INIT] at h ⊢
  split at h
  · rename_i e; exact absurd h e
  · split at h
    · rename_i e; exact absurd h e
    · split at h
      · rename_i e; exact absurd h e
      · split at h
        · rename_i e; exact absurd h e
        · rename_i e1 e2 e3 e4
          simp only [e1, e2, e3, e4, if_false]
          obtain ⟨T1, t1, k1, r1⟩ := INIT_loop_skeleton _ _ _ _ _ (by simpa using e1)
          obtain ⟨T2, t2, k2, r2⟩ := INIT_loop_skeleton _ _ _ _ _ (by simpa using e2)
          obtain ⟨T3, t3, k3, r3⟩ := INIT_loop_skeleton _ _ _ _ _ (by simpa using e3)
          obtain ⟨T4, t4, k4, r4⟩ := INIT_loop_skeleton _ _ _ _ _ (by simpa using e4)
          obtain ⟨T5, t5, k5, r5⟩ := INIT_loop_skeleton _ _ _ _ _ h
          refine ⟨T1 ++ (T2 ++ (T3 ++ (T4 ++ T5))), ?_, ?_, ?_⟩
          · rw [t5, t4, t3, t2, t1]; simp only [List.append_assoc]
          · simp only [skeleton_append, k1, k2, k3, k4, k5]; rfl
          · intro c hc
            simp only [List.mem_append] at hc
            rcases hc with hc | hc | hc | hc | hc
            · exact r1 c hc
            · exact r2 c hc
            · exact r3 c hc
            · exact r4 c hc
            · exact r5 c hc

theorem filter_skeleton_length (p : Op → Bool) (hp : ∀ o, p o.unval = p o) (t : List Call) :
    ((t.map Call.op).filter p).length = ((skeleton t).filter p).length := by
  induction t with
  | nil => rfl
  | cons c t ih =>
    simp only [skeleton, List.map_cons, List.filter_cons, hp] at ih ⊢
    split <;> simp [ih]

/-- C13 as stated fails: on the sample device tree the configuration phase
succeeds and asks the source forty times, not five; the second request for
"idle-threshold" comes after the write for channel 0. -/
theorem forty_fetches_on_sample :
    (ds64br401_probe_init (sampleEnv 0xa0 sampleCells none) (State.init ())).1 = 0 ∧
    (((ds64br401_probe_init (sampleEnv 0xa0 sampleCells none) (State.init ())).2.trace.map
      Call.op).filter Op.isFetch).length = 40 ∧
    ¬ (((ds64br401_probe_init (sampleEnv 0xa0 sampleCells none) (State.init ())).2.trace.map
      Call.op).filter Op.isFetch).length = 5 ∧
    ((ds64br401_probe_init (sampleEnv 0xa0 sampleCells none) (State.init ())).2.trace.map
      Call.op).take 4 =
      [Op.fetch "idle-threshold", Op.write 0x12 1, Op.fetch "idle-threshold", Op.write 0x19 2] := by
  decide

/-- C13 amended: in a configuration phase that returns `0`, the source is asked
for a kind's array once per channel, immediately before that channel's write:
the log is, for each kind in probe's order and each channel `0..7`, one
property read followed by the one write to that channel's register.  That makes
forty property reads, eight per kind, and forty writes. -/
theorem fetch_before_each_write {σ : Type} (E : Env σ) (w : σ)
    (h : (ds64br401_probe_init E (State.init w)).1 = 0) :
    skeleton (ds64br401_probe_init E (State.init w)).2.trace = init_skeleton ∧
    (((ds64br401_probe_init E (State.init w)).2.trace.map Call.op).filter
      Op.isFetch).length = 40 ∧
    (((ds64br401_probe_init E (State.init w)).2.trace.map Call.op).filter
      Op.isWrite).length = 40 ∧
    ∀ pk ∈ init_table,
      (((ds64br401_probe_init E (State.init w)).2.trace.map Call.op).filter
        (fun o => decide (o = Op.fetch pk.1))).length = 8 := by
  obtain ⟨T, hT, hsk, _⟩ := probe_init_skeleton E (State.init w) h
  rw [init_trace, List.nil_append] at hT
  rw [hT]
  refine ⟨hsk, ?_, ?_, ?_⟩
  · rw [filter_skeleton_length _ (by intro o; cases o <;> rfl), hsk]; rfl
  · rw [filter_skeleton_length _ (by intro o; cases o <;> rfl), hsk]; rfl
  · intro pk hpk
    rw [filter_skeleton_length _ (by intro o; cases o <;> simp [Op.unval]), hsk]
    simp only [init_table, List.mem_cons, List.mem_singleton, List.not_mem_nil, or_false] at hpk
    rcases hpk with e | e | e | e | e <;> subst e <;> decide

/-- Witness for the amended C13 on the sample device tree. -/
theorem fetch_before_each_write_witness :
    skeleton (ds64br401_probe_init (sampleEnv 0xa0 sampleCells none) (State.init ())).2.trace
      = init_skeleton ∧
    (((ds64br401_probe_init (sampleEnv 0xa0 sampleCells none) (State.init ())).2.trace.map
      Call.op).filter Op.isFetch).length = 40 :=
  ⟨(fetch_before_each_write (sampleEnv 0xa0 sampleCells none) () (by decide)).1,
   (fetch_before_each_write (sampleEnv 0xa0 sampleCells none) () (by decide)).2.1⟩

/-! ## Order of the register writes -/

theorem bus_ops_unval (t : List Call) :
    (bus_ops t).map Op.unval = (skeleton t).filter Op.isBus := by
  induction t with
  | nil => rfl
  | cons c t ih =>
    have hb : Op.isBus c.op.unval = Op.isBus c.op := by cases c.op <;> rfl
    simp only [bus_ops, skeleton, List.map_cons, List.filter_cons, hb] at ih ⊢
    split
    · simp [ih]
    · exact ih

theorem unval_eq_write (o : Op) (a : Nat) (h : o.unval = Op.write a 0) :
    ∃ v, o = Op.write a v := by
  cases o with
  | write r v => simp only [Op.unval, Op.write.injEq, and_true] at h; exact ⟨v, by rw [h]⟩
  | read r => simp [Op.unval] at h
  | fetch p => simp [Op.unval] at h
  | pm_runtime_enable => simp [Op.unval] at h
  | pm_runtime_disable => simp [Op.unval] at h

theorem init_skeleton_nth (n : Nat) (hn : n < 40) :
    (init_skeleton.filter Op.isBus)[n]? =
      some (Op.write (ds64br401_chan_reg (n % 8) (kind_order.getD (n / 8) 0)).toNat 0) := by
  interval_cases n <;> rfl

/-- C14: in a configuration phase that returns `0` the bus transfers are forty
writes ordered by kind in the order IdleThreshold, IdleRate, Eq, Vod, Dem and,
within a kind, by channel `0, 1, ..., 7`: the `n`-th transfer is a write to the
register of kind `kind_order[n / 8]` of channel `n mod 8`. -/
theorem writes_in_fixed_order {σ : Type} (E : Env σ) (w : σ)
    (h : (ds64br401_probe_init E (State.init w)).1 = 0) :
    (bus_ops (ds64br401_probe_init E (State.init w)).2.trace).length = 40 ∧
    ∀ n, n < 40 → ∃ v,
      (bus_ops (ds64br401_probe_init E (State.init w)).2.trace)[n]? =
        some (Op.write (ds64br401_chan_reg (n % 8) (kind_order.getD (n / 8) 0)).toNat v) := by
  obtain ⟨T, hT, hsk, _⟩ := probe_init_skeleton E (State.init w) h
  rw [init_trace, List.nil_append] at hT
  have hu := bus_ops_unval T
  rw [hsk] at hu
  rw [hT]
  constructor
  · have := congrArg List.length hu
    rw [List.length_map] at this
    rw [this]; rfl
  · intro n hn
    have hnth := init_skeleton_nth n hn
    rw [← hu, List.getElem?_map] at hnth
    cases hg : (bus_ops T)[n]? with
    | none => rw [hg] at hnth; simp at hnth
    | some o =>
      rw [hg] at hnth
      simp only [Option.map_some', Option.some.injEq] at hnth
      obtain ⟨v, hv⟩ := unval_eq_write o _ hnth
      exact ⟨v, by rw [hv]⟩

/-- Witness for C14 on the sample device tree: transfer 0 is the write to
`0x12` (idle-threshold, channel 0) and transfer 39 the write to `0x43` (dem,
channel 7). -/
theorem writes_in_fixed_order_witness :
    ((bus_ops (ds64br401_probe_init (sampleEnv 0xa0 sampleCells none)
      (State.init ())).2.trace).length = 40 ∧
     ∀ n, n < 40 → ∃ v,
      (bus_ops (ds64br401_probe_init (sampleEnv 0xa0 sampleCells none)
        (State.init ())).2.trace)[n]? =
        some (Op.write (ds64br401_chan_reg (n % 8) (kind_order.getD (n / 8) 0)).toNat v)) ∧
    (bus_ops (ds64br401_probe_init (sampleEnv 0xa0 sampleCells none)
      (State.init ())).2.trace)[0]? = some (Op.write 0x12 1) ∧
    (bus_ops (ds64br401_probe_init (sampleEnv 0xa0 sampleCells none)
      (State.init ())).2.trace)[39]? = some (Op.write 0x43 55) :=
  ⟨writes_in_fixed_order (sampleEnv 0xa0 sampleCells none) () (by decide), by decide, by decide⟩

/-! ## The sequence of a successful probe -/

/-- A reset that returned `0` read a non-negative value from register `0x00`
and wrote it back with bit 0 set. -/
theorem reset_success {σ : Type} (E : Env σ) (s : State σ)
    (h : (ds64br401_reset E s).1 = 0) :
    0 ≤ (E.i2c_smbus_read_byte_data s.world 0).1 ∧
    (ds64br401_reset E s).2.trace = s.trace ++
      [⟨Op.read 0, (E.i2c_smbus_read_byte_data s.world 0).1⟩,
       ⟨Op.write 0 (to_u8 (Int.lor (E.i2c_smbus_read_byte_data s.world 0).1 0x01)), 0⟩] := by
  have h8 : to_u8 DS64BR401_RESET = 0 := by decide
  unfold ds64br401_reset at h ⊢
  simp only [ds64br401_read, h8] at h ⊢
  split at h
  · rename_i hneg; simp only at h; omega
  · rename_i hneg
    simp only [hneg, if_false]
    refine ⟨by omega, ?_⟩
    rw [write_trace, h]
    simp [h8]

/-- C15: a probe that returns `0` made, in this order, one read of register
`0x00`, one write of the value read with bit 0 set to register `0x00`, one
write of `0x00` to the power-down register `0x01`, one write of `0x01` to the
power-down-control register `0x02`, then the calls of the configuration phase
(for each kind and channel a property read and the channel write), and last
the single `pm_runtime_enable`.  In total the log holds exactly 1 bus read, 43
bus writes and 1 enabling of auto-suspend. -/
theorem probe_success_sequence {σ : Type} (E : Env σ) (w : σ)
    (h : (ds64br401_probe E (State.init w)).1 = 0) :
    0 ≤ (E.i2c_smbus_read_byte_data w 0).1 ∧
    ((E.i2c_smbus_read_byte_data w 0).1 < 256 →
      to_u8 (Int.lor (E.i2c_smbus_read_byte_data w 0).1 0x01) =
        (E.i2c_smbus_read_byte_data w 0).1.toNat ||| 1) ∧
    (∃ T, (ds64br401_probe E (State.init w)).2.trace =
        [⟨Op.read 0, (E.i2c_smbus_read_byte_data w 0).1⟩,
         ⟨Op.write 0 (to_u8 (Int.lor (E.i2c_smbus_read_byte_data w 0).1 0x01)), 0⟩,
         ⟨Op.write 0x01 0x00, 0⟩, ⟨Op.write 0x02 0x01, 0⟩] ++ T ++ [⟨Op.pm_runtime_enable, 0⟩] ∧
      skeleton T = init_skeleton) ∧
    (((ds64br401_probe E (State.init w)).2.trace.map Call.op).filter Op.isRead).length = 1 ∧
    (((ds64br401_probe E (State.init w)).2.trace.map Call.op).filter Op.isWrite).length = 43 ∧
    (((ds64br401_probe E (State.init w)).2.trace.map Call.op).filter
      (fun o => decide (o = Op.pm_runtime_enable))).length = 1 := by
  have key : 0 ≤ (E.i2c_smbus_read_byte_data w 0).1 ∧
      ∃ T, (ds64br401_probe E (State.init w)).2.trace =
        [⟨Op.read 0, (E.i2c_smbus_read_byte_data w 0).1⟩,
         ⟨Op.write 0 (to_u8 (Int.lor (E.i2c_smbus_read_byte_data w 0).1 0x01)), 0⟩,
         ⟨Op.write 0x01 0x00, 0⟩, ⟨Op.write 0x02 0x01, 0⟩] ++ T ++ [⟨Op.pm_runtime_enable, 0⟩] ∧
        skeleton T = init_skeleton := by
    simp only [ds64br401_probe] at h ⊢
    split at h
    · rename_i e; exact absurd h e
    · split at h
      · rename_i e; exact absurd h e
      · split at h
        · rename_i e; exact absurd h e
        · split at h
          · rename_i e; exact absurd h e
          · rename_i e1 e2 e3 e4
            simp only [e1, e2, e3, e4, if_false]
            have r1 := reset_success E (State.init w) (by simpa using e1)
            have r2 : (ds64br401_power E (ds64br401_reset E (State.init w)).2 1).1 = 0 := by
              simpa using e2
            have r3 : (ds64br401_write E (ds64br401_power E
                (ds64br401_reset E (State.init w)).2 1).2 DS64BR401_PWDN_CTL 0x1).1 = 0 := by
              simpa using e3
            obtain ⟨T, hT, hsk, _⟩ := probe_init_skeleton E _ (by simpa using e4)
            refine ⟨r1.1, T, ?_, hsk⟩
            simp only [pm_runtime_enable]
            rw [hT, write_trace, r3]
            unfold ds64br401_power at r2 ⊢
            simp only at r2 ⊢
            rw [write_trace, r2, r1.2, init_trace]
            simp only [List.nil_append, List.append_assoc, List.cons_append]
            rfl
  obtain ⟨hv, T, hT, hsk⟩ := key
  have hskel : skeleton (ds64br401_probe E (State.init w)).2.trace =
      [Op.read 0, Op.write 0 0, Op.write 1 0, Op.write 2 0] ++ init_skeleton ++
        [Op.pm_runtime_enable] := by
    rw [hT, skeleton_append, skeleton_append, hsk]; rfl
  refine ⟨hv, ?_, ⟨T, hT, hsk⟩, ?_, ?_, ?_⟩
  · intro hlt
    obtain ⟨n, hn⟩ := Int.eq_ofNat_of_zero_le hv
    rw [hn] at hlt ⊢
    have hn256 : n < 256 := by omega
    rw [lor_one_natCast, to_u8_natCast _ (lor_one_lt n hn256)]
    simp
  · rw [filter_skeleton_length _ (by intro o; cases o <;> rfl), hskel]; rfl
  · rw [filter_skeleton_length _ (by intro o; cases o <;> rfl), hskel]; rfl
  · rw [filter_skeleton_length _ (by intro o; cases o <;> simp [Op.unval]), hskel]; decide

/-- Witness for C15 on the sample world: the reset register reads `0xa0`, the
log opens with the read, the write of `0xa1`, the power-on write and the
power-down-control write, and holds 1 read and 43 writes. -/
theorem probe_success_sequence_witness :
    ((ds64br401_probe (sampleEnv 0xa0 sampleCells none) (State.init ())).2.trace.map
      Call.op).take 5 =
      [Op.read 0, Op.write 0 0xa1, Op.write 0x01 0x00, Op.write 0x02 0x01,
       Op.fetch "idle-threshold"] ∧
    (((ds64br401_probe (sampleEnv 0xa0 sampleCells none) (State.init ())).2.trace.map
      Call.op).filter Op.isRead).length = 1 ∧
    (((ds64br401_probe (sampleEnv 0xa0 sampleCells none) (State.init ())).2.trace.map
      Call.op).filter Op.isWrite).length = 43 :=
  ⟨by decide,
   (probe_success_sequence (sampleEnv 0xa0 sampleCells none) () (by decide)).2.2.2.1,
   (probe_success_sequence (sampleEnv 0xa0 sampleCells none) () (by decide)).2.2.2.2.1⟩

/-! ## No rollback: the transfers issued are a prefix of the full sequence -/

theorem bus_ops_append (a b : List Call) : bus_ops (a ++ b) = bus_ops a ++ bus_ops b := by
  simp [bus_ops]

/-- Sequencing two steps with the early return of probe. -/
theorem BusAt_seq {σ : Type} (r1 r2 : Int × State σ) (s : State σ) (F G : List Op)
    (h1 : BusAt r1 s F) (h2 : r1.1 = 0 → BusAt r2 r1.2 G) :
    BusAt (if r1.1 ≠ 0 then r1 else r2) s (F ++ G) := by
  obtain ⟨p1, e1, pre1, full1⟩ := h1
  by_cases h0 : r1.1 = 0
  · obtain ⟨p2, e2, pre2, full2⟩ := h2 h0
    simp only [h0, ne_eq, not_true_eq_false, if_false]
    refine ⟨F ++ p2, ?_, (List.prefix_append_right_inj F).mpr pre2, fun h => by rw [full2 h]⟩
    rw [e2, e1, full1 h0, List.append_assoc]
  · simp only [h0, ne_eq, not_false_eq_true, if_true]
    exact ⟨p1, e1, pre1.trans (List.prefix_append F G), fun h => absurd h h0⟩

theorem write_BusAt {σ : Type} (E : Env σ) (s : State σ) (reg val : Int) :
    BusAt (ds64br401_write E s reg val) s [Op.write (to_u8 reg) (to_u8 val)] := by
  refine ⟨[Op.write (to_u8 reg) (to_u8 val)], ?_, List.prefix_refl _, fun _ => rfl⟩
  rw [write_trace, bus_ops_append]; rfl

/-- The loop issues a prefix of the writes for its channels, all of them when
it runs to its end, provided a successful property read yields `vals`. -/
theorem INIT_loop_BusAt {σ : Type} (E : Env σ) (prop : String) (_reg : Int) (vals : List Nat)
    (hfv : ∀ w, (E.of_property_read_u32_array w prop 8).1.1 = 0 →
      (E.of_property_read_u32_array w prop 8).1.2 = vals)
    (is : List Nat) (s : State σ) :
    BusAt (DS64BR401_INIT_loop E prop _reg is s) s
      (is.map fun i => Op.write (to_u8 (ds64br401_chan_reg i _reg)) (vals.getD i 0 % 256)) := by
  induction is generalizing s with
  | nil => exact ⟨[], by simp [DS64BR401_INIT_loop], List.prefix_refl _, fun _ => rfl⟩
  | cons i is ih =>
    simp only [DS64BR401_INIT_loop, List.map_cons]
    split
    · rename_i e0
      refine ⟨[], ?_, List.nil_prefix, fun h => absurd h e0⟩
      rw [fetch_trace, bus_ops_append]; rfl
    · rename_i e0
      have f0 : (E.of_property_read_u32_array s.world prop 8).1.1 = 0 := by
        simpa [of_property_read_u32_array] using e0
      have hval : to_u8 ((of_property_read_u32_array E s prop 8).2.1.getD i 0)
          = vals.getD i 0 % 256 := by
        simp only [of_property_read_u32_array, hfv _ f0]
        exact val_getD_to_u8 vals i
      have hfb : bus_ops (of_property_read_u32_array E s prop 8).2.2.trace = bus_ops s.trace := by
        rw [fetch_trace, bus_ops_append]; exact List.append_nil _
      have hw := write_BusAt E (of_property_read_u32_array E s prop 8).2.2
        (ds64br401_chan_reg i _reg) ((of_property_read_u32_array E s prop 8).2.1.getD i 0)
      rw [hval] at hw
      have hseq := BusAt_seq _ _ _ _ _ hw (fun _ => ih
        (ds64br401_write E (of_property_read_u32_array E s prop 8).2.2
          (ds64br401_chan_reg i _reg)
          ((of_property_read_u32_array E s prop 8).2.1.getD i 0)).2)
      obtain ⟨p, e, pre, full⟩ := hseq
      exact ⟨p, by rw [e, hfb], pre, full⟩

theorem probe_init_BusAt {σ : Type} (E : Env σ) (vals : String → List Nat)
    (hfv : ∀ pk ∈ init_table, ∀ w, (E.of_property_read_u32_array w pk.1 8).1.1 = 0 →
      (E.of_property_read_u32_array w pk.1 8).1.2 = vals pk.1)
    (s : State σ) :
    BusAt (ds64br401_probe_init E s) s (full_init_ops vals) := by
  have L := fun (pk : String × Int) (h : pk ∈ init_table) (t : State σ) =>
    INIT_loop_BusAt E pk.1 pk.2 (vals pk.1) (hfv pk h) [0, 1, 2, 3, 4, 5, 6, 7] t
  have hF : full_init_ops vals =
      ([0, 1, 2, 3, 4, 5, 6, 7].map fun i => Op.write
        (to_u8 (ds64br401_chan_reg i DS64BR401_IDLETHRESH))
        ((vals "idle-threshold").getD i 0 % 256)) ++
      (([0, 1, 2, 3, 4, 5, 6, 7].map fun i => Op.write
        (to_u8 (ds64br401_chan_reg i DS64BR401_IDLERATE)) ((vals "idle-rate").getD i 0 % 256)) ++
      (([0, 1, 2, 3, 4, 5, 6, 7].map fun i => Op.write
        (to_u8 (ds64br401_chan_reg i DS64BR401_EQ)) ((vals "eq").getD i 0 % 256)) ++
      (([0, 1, 2, 3, 4, 5, 6, 7].map fun i => Op.write
        (to_u8 (ds64br401_chan_reg i DS64BR401_VOD)) ((vals "vod").getD i 0 % 256)) ++
      ([0, 1, 2, 3, 4, 5, 6, 7].map fun i => Op.write
        (to_u8 (ds64br401_chan_reg i DS64BR401_DEM)) ((vals "dem").getD i 0 % 256))))) := by
    simp only [full_init_ops, init_table, range_eight, List.flatMap_cons, List.flatMap_nil,
      List.append_nil]
    rfl
  rw [hF]
  simp only [ds64br401_probe_init, DS64BR401_INIT, range_eight]
  exact BusAt_seq _ _ _ _ _ (L ("idle-threshold", DS64BR401_IDLETHRESH) (by simp [init_table]) _)
    (fun _ => BusAt_seq _ _ _ _ _ (L ("idle-rate", DS64BR401_IDLERATE) (by simp [init_table]) _)
    (fun _ => BusAt_seq _ _ _ _ _ (L ("eq", DS64BR401_EQ) (by simp [init_table]) _)
    (fun _ => BusAt_seq _ _ _ _ _ (L ("vod", DS64BR401_VOD) (by simp [init_table]) _)
    (fun _ => L ("dem", DS64BR401_DEM) (by simp [init_table]) _))))

theorem reset_BusAt {σ : Type} (E : Env σ) (s : State σ) :
    BusAt (ds64br401_reset E s) s
      [Op.read 0, Op.write 0 (to_u8 (Int.lor (E.i2c_smbus_read_byte_data s.world 0).1 0x01))] := by
  have h8 : to_u8 DS64BR401_RESET = 0 := by decide
  have hrd : bus_ops (ds64br401_read E s DS64BR401_RESET).2.trace
      = bus_ops s.trace ++ [Op.read 0] := by
    simp only [ds64br401_read, bus_ops_append, h8]; rfl
  unfold ds64br401_reset
  simp only
  split
  · rename_i hneg
    exact ⟨[Op.read 0], hrd, ⟨_, rfl⟩, fun h => by omega⟩
  · obtain ⟨p, e, pre, full⟩ := write_BusAt E (ds64br401_read E s DS64BR401_RESET).2
      DS64BR401_RESET (Int.lor (ds64br401_read E s DS64BR401_RESET).1 0x01)
    refine ⟨Op.read 0 :: p, ?_, ?_, ?_⟩
    · rw [e, hrd]; simp
    · exact (List.prefix_cons_inj _).mpr (by simpa [ds64br401_read, h8] using pre)
    · intro h; rw [full h]; simp [ds64br401_read, h8]

/-- The bus transfers of probe are a prefix of the transfers of a probe in
which everything succeeds, and all of them when probe returns `0`. -/
theorem probe_BusAt {σ : Type} (E : Env σ) (vals : String → List Nat)
    (hfv : ∀ pk ∈ init_table, ∀ w, (E.of_property_read_u32_array w pk.1 8).1.1 = 0 →
      (E.of_property_read_u32_array w pk.1 8).1.2 = vals pk.1)
    (s : State σ) :
    BusAt (ds64br401_probe E s) s
      (full_bus_ops (E.i2c_smbus_read_byte_data s.world 0).1 vals) := by
  have hlast : ∀ r : Int × State σ, BusAt (0, pm_runtime_enable r.2) r.2 [] := by
    intro r
    refine ⟨[], ?_, List.prefix_refl _, fun _ => rfl⟩
    simp only [pm_runtime_enable, bus_ops_append]; rfl
  have hF : full_bus_ops (E.i2c_smbus_read_byte_data s.world 0).1 vals =
      [Op.read 0, Op.write 0 (to_u8 (Int.lor (E.i2c_smbus_read_byte_data s.world 0).1 0x01))] ++
      ([Op.write (to_u8 DS64BR401_PWDN) (to_u8 0)] ++
      ([Op.write (to_u8 DS64BR401_PWDN_CTL) (to_u8 0x1)] ++ (full_init_ops vals ++ []))) := by
    simp only [full_bus_ops, List.append_nil]; rfl
  rw [hF]
  simp only [ds64br401_probe]
  exact BusAt_seq _ _ _ _ _ (reset_BusAt E s)
    (fun _ => BusAt_seq _ _ _ _ _ (write_BusAt E _ DS64BR401_PWDN 0)
    (fun _ => BusAt_seq _ _ _ _ _ (write_BusAt E _ DS64BR401_PWDN_CTL 0x1)
    (fun _ => BusAt_seq _ _ _ _ _ (probe_init_BusAt E vals hfv _) (fun _ => hlast _))))

theorem full_bus_ops_writeReg_nodup (v : Int) (vals : String → List Nat) :
    ((full_bus_ops v vals).filterMap Op.writeReg).Nodup := by
  have h : (full_bus_ops v vals).filterMap Op.writeReg =
      (full_bus_ops 0 (fun _ => [])).filterMap Op.writeReg := rfl
  rw [h]; decide

/-- C16: partial configuration is never rolled back.  Take any bus and source
`E`, with any pattern of failing property reads and writes, and a bus and
source `E'` on which probe succeeds; let both yield the cells `vals` when a
property read succeeds, and let the reset register read the same value on both
(or the read fail on `E`).  Then the bus transfers probe issues on `E` are a
prefix of those it issues on `E'`, and no register is written twice. -/
theorem no_rollback {σ τ : Type} (E : Env σ) (E' : Env τ) (w : σ) (w' : τ)
    (vals : String → List Nat)
    (hfv : ∀ pk ∈ init_table, ∀ x, (E.of_property_read_u32_array x pk.1 8).1.1 = 0 →
      (E.of_property_read_u32_array x pk.1 8).1.2 = vals pk.1)
    (hfv' : ∀ pk ∈ init_table, ∀ x, (E'.of_property_read_u32_array x pk.1 8).1.1 = 0 →
      (E'.of_property_read_u32_array x pk.1 8).1.2 = vals pk.1)
    (hv : (E.i2c_smbus_read_byte_data w 0).1 < 0 ∨
      (E.i2c_smbus_read_byte_data w 0).1 = (E'.i2c_smbus_read_byte_data w' 0).1)
    (hok : (ds64br401_probe E' (State.init w')).1 = 0) :
    bus_ops (ds64br401_probe E (State.init w)).2.trace <+:
      bus_ops (ds64br401_probe E' (State.init w')).2.trace ∧
    ((bus_ops (ds64br401_probe E (State.init w)).2.trace).filterMap Op.writeReg).Nodup := by
  obtain ⟨p, e, pre, _⟩ := probe_BusAt E vals hfv (State.init w)
  obtain ⟨p', e', _, full'⟩ := probe_BusAt E' vals hfv' (State.init w')
  have hb : bus_ops (State.init w).trace = [] := rfl
  have hb' : bus_ops (State.init w').trace = [] := rfl
  rw [hb, List.nil_append] at e
  rw [hb', List.nil_append, full' hok] at e'
  constructor
  · rw [e']
    rcases hv with hneg | heq
    · have h8 : to_u8 DS64BR401_RESET = 0 := by decide
      have ht : bus_ops (ds64br401_probe E (State.init w)).2.trace = [Op.read 0] := by
        have hne : (E.i2c_smbus_read_byte_data w 0).1 ≠ 0 := by omega
        simp [ds64br401_probe, ds64br401_reset, ds64br401_read, State.init, h8, hneg, hne,
          bus_ops, Op.isBus]
      rw [ht]
      exact ⟨_, rfl⟩
    · rw [e]
      have : (State.init w).world = w := rfl
      rw [this, heq] at pre
      exact pre
  · rw [e]
    exact (full_bus_ops_writeReg_nodup _ vals).sublist (pre.filterMap Op.writeReg).sublist

/-- Witness for C16: on the bus that refuses writes to register `0x25`, probe
issues a prefix of what it issues on the bus where everything succeeds. -/
theorem no_rollback_witness :
    bus_ops (ds64br401_probe (sampleEnv 0xa0 sampleCells (some (0x25, -5)))
      (State.init ())).2.trace <+:
      bus_ops (ds64br401_probe (sampleEnv 0xa0 sampleCells none) (State.init ())).2.trace ∧
    ((bus_ops (ds64br401_probe (sampleEnv 0xa0 sampleCells (some (0x25, -5)))
      (State.init ())).2.trace).filterMap Op.writeReg).Nodup :=
  no_rollback (sampleEnv 0xa0 sampleCells (some (0x25, -5))) (sampleEnv 0xa0 sampleCells none)
    () () sampleVals
    (fun pk hpk x _ => congrArg Prod.snd (sampleEnv_fetch _ _ pk hpk x))
    (fun pk hpk x _ => congrArg Prod.snd (sampleEnv_fetch _ _ pk hpk x))
    (Or.inr rfl) (by decide)

/-! ## Channel registers stay clear of the global registers -/

/-- A property of operations that holds of the property read and of every
channel write of the loop is preserved by the loop. -/
theorem INIT_loop_inv {σ : Type} (Q : Op → Prop) (E : Env σ) (prop : String) (_reg : Int)
    (is : List Nat) (hqf : Q (Op.fetch prop))
    (hqw : ∀ i ∈ is, ∀ v, Q (Op.write (to_u8 (ds64br401_chan_reg i _reg)) v))
    (s : State σ) (hs : ∀ c ∈ s.trace, Q c.op) :
    ∀ c ∈ (DS64BR401_INIT_loop E prop _reg is s).2.trace, Q c.op := by
  induction is generalizing s with
  | nil => exact hs
  | cons i is ih =>
    have hf : ∀ c ∈ (of_property_read_u32_array E s prop 8).2.2.trace, Q c.op := by
      intro c hc
      rw [fetch_trace, List.mem_append, List.mem_singleton] at hc
      rcases hc with hc | hc
      · exact hs c hc
      · rw [hc]; exact hqf
    have hw : ∀ c ∈ (ds64br401_write E (of_property_read_u32_array E s prop 8).2.2
        (ds64br401_chan_reg i _reg)
        ((of_property_read_u32_array E s prop 8).2.1.getD i 0)).2.trace, Q c.op := by
      intro c hc
      rw [write_trace, List.mem_append, List.mem_singleton] at hc
      rcases hc with hc | hc
      · exact hf c hc
      · rw [hc]; exact hqw i (List.mem_cons_self _ _) _
    simp only [DS64BR401_INIT_loop]
    split
    · exact hf
    · split
      · exact hw
      · exact ih (fun j hj v => hqw j (List.mem_cons_of_mem _ hj) v) _ hw

theorem probe_init_inv {σ : Type} (Q : Op → Prop) (E : Env σ)
    (hqf : ∀ p, Q (Op.fetch p))
    (hqw : ∀ k ∈ kind_offsets, ∀ i, i < 8 → ∀ v, Q (Op.write (to_u8 (ds64br401_chan_reg i k)) v))
    (s : State σ) (hs : ∀ c ∈ s.trace, Q c.op) :
    ∀ c ∈ (ds64br401_probe_init E s).2.trace, Q c.op := by
  have L := fun (p : String) (k : Int) (hk : k ∈ kind_offsets) (t : State σ)
      (ht : ∀ c ∈ t.trace, Q c.op) =>
    INIT_loop_inv Q E p k [0, 1, 2, 3, 4, 5, 6, 7] (hqf p)
      (fun i hi v => hqw k hk i (mem_eight i hi) v) t ht
  have h1 := L "idle-threshold" DS64BR401_IDLETHRESH (by decide) s hs
  have h2 := L "idle-rate" DS64BR401_IDLERATE (by decide) _ h1
  have h3 := L "eq" DS64BR401_EQ (by decide) _ h2
  have h4 := L "vod" DS64BR401_VOD (by decide) _ h3
  have h5 := L "dem" DS64BR401_DEM (by decide) _ h4
  simp only [ds64br401_probe_init, DS64BR401_INIT, range_eight]
  split
  · exact h1
  · split
    · exact h2
    · split
      · exact h3
      · split
        · exact h4
        · exact h5

/-- C17: for every channel in `[0,8)` and every one of the five kind offsets
the register address lies in `[0x0e, 0x44]`, is unchanged by the conversion to
`u8`, and differs from the global registers `0x00` (reset), `0x01`
(power-down), `0x02` (power-down control) and `0x08` (pin control).  On every
bus and source, whatever fails, no bus transfer of the configuration phase
addresses one of those four registers. -/
theorem chan_reg_window {σ : Type} (E : Env σ) (w : σ) (c : Nat) (k : Int) (hc : c < 8)
    (hk : k ∈ kind_offsets) :
    (0x0e ≤ ds64br401_chan_reg c k ∧ ds64br401_chan_reg c k ≤ 0x44) ∧
    ((to_u8 (ds64br401_chan_reg c k) : Nat) : Int) = ds64br401_chan_reg c k ∧
    (ds64br401_chan_reg c k ≠ DS64BR401_RESET ∧ ds64br401_chan_reg c k ≠ DS64BR401_PWDN ∧
      ds64br401_chan_reg c k ≠ DS64BR401_PWDN_CTL ∧
      ds64br401_chan_reg c k ≠ DS64BR401_PINCTL) ∧
    ∀ o ∈ bus_ops (ds64br401_probe_init E (State.init w)).2.trace,
      Op.targets 0x00 o = false ∧ Op.targets 0x01 o = false ∧ Op.targets 0x02 o = false ∧
        Op.targets 0x08 o = false := by
  refine ⟨?_, ?_, ?_, ?_⟩
  · simp only [kind_offsets, List.mem_cons, List.mem_singleton, List.not_mem_nil, or_false] at hk
    interval_cases c <;> rcases hk with h | h | h | h | h <;> subst h <;> decide
  · simp only [kind_offsets, List.mem_cons, List.mem_singleton, List.not_mem_nil, or_false] at hk
    interval_cases c <;> rcases hk with h | h | h | h | h <;> subst h <;> decide
  · simp only [kind_offsets, List.mem_cons, List.mem_singleton, List.not_mem_nil, or_false] at hk
    interval_cases c <;> rcases hk with h | h | h | h | h <;> subst h <;> decide
  · intro o ho
    simp only [bus_ops, List.mem_filter, List.mem_map] at ho
    obtain ⟨⟨d, hd, hdo⟩, _⟩ := ho
    have := probe_init_inv
      (fun o => Op.targets 0x00 o = false ∧ Op.targets 0x01 o = false ∧
        Op.targets 0x02 o = false ∧ Op.targets 0x08 o = false) E
      (fun _ => ⟨rfl, rfl, rfl, rfl⟩)
      (by
        intro k hk i hi v
        simp only [kind_offsets, List.mem_cons, List.mem_singleton, List.not_mem_nil,
          or_false] at hk
        interval_cases i <;> rcases hk with h | h | h | h | h <;> subst h <;>
          exact ⟨rfl, rfl, rfl, rfl⟩)
      (State.init w) (by intro c hc; simp [State.init] at hc) d hd
    rw [hdo] at this
    exact this

/-- Witness for C17 at channel 7 and the idle-threshold offset, the highest
channel register `0x44`. -/
theorem chan_reg_window_witness :
    ds64br401_chan_reg 7 DS64BR401_IDLETHRESH = 0x44 ∧
    (0x0e ≤ ds64br401_chan_reg 7 DS64BR401_IDLETHRESH ∧
      ds64br401_chan_reg 7 DS64BR401_IDLETHRESH ≤ 0x44) :=
  ⟨by decide,
   (chan_reg_window (sampleEnv 0xa0 sampleCells none) () 7 DS64BR401_IDLETHRESH (by decide)
     (by decide)).1⟩

/-! ## The register file after a successful probe -/

theorem apply_writes_append (rf : Nat → Nat) (a b : List (Nat × Nat)) :
    apply_writes rf (a ++ b) = apply_writes (apply_writes rf a) b := by
  induction a generalizing rf with
  | nil => rfl
  | cons x a ih => simp only [List.cons_append, apply_writes]; exact ih _

/-- Registers no write addresses keep their content. -/
theorem apply_writes_frame (rf : Nat → Nat) (ws : List (Nat × Nat)) (r : Nat)
    (h : r ∉ ws.map Prod.fst) : apply_writes rf ws r = rf r := by
  induction ws generalizing rf with
  | nil => rfl
  | cons x ws ih =>
    simp only [List.map_cons, List.mem_cons, not_or] at h
    simp only [apply_writes]
    rw [ih _ h.2, Function.update_noteq h.1]

/-- When no register is written twice, each written register holds its byte. -/
theorem apply_writes_hit (rf : Nat → Nat) (ws : List (Nat × Nat)) (a v : Nat)
    (hnd : (ws.map Prod.fst).Nodup) (h : (a, v) ∈ ws) : apply_writes rf ws a = v := by
  induction ws generalizing rf with
  | nil => simp at h
  | cons x ws ih =>
    simp only [List.map_cons, List.nodup_cons] at hnd
    simp only [apply_writes]
    rcases List.mem_cons.mp h with h | h
    · subst h
      rw [apply_writes_frame _ _ _ hnd.1]
      simp
    · exact ih _ hnd.2 h

/-- On a device whose writes, when they succeed, store their byte and whose
property reads leave the registers alone, a loop that ran to its end applied
the writes for its channels. -/
theorem INIT_loop_world {σ : Type} (E : Env σ) (regs : σ → Nat → Nat) (prop : String)
    (_reg : Int) (vals : List Nat)
    (hwr : ∀ x r v, (E.i2c_smbus_write_byte_data x r v).1 = 0 →
      regs (E.i2c_smbus_write_byte_data x r v).2 = Function.update (regs x) r v)
    (hfe : ∀ x p n, regs (E.of_property_read_u32_array x p n).2 = regs x)
    (hfv : ∀ x, (E.of_property_read_u32_array x prop 8).1.1 = 0 →
      (E.of_property_read_u32_array x prop 8).1.2 = vals)
    (is : List Nat) (s : State σ) (h : (DS64BR401_INIT_loop E prop _reg is s).1 = 0) :
    regs (DS64BR401_INIT_loop E prop _reg is s).2.world =
      apply_writes (regs s.world)
        (is.map fun i => (to_u8 (ds64br401_chan_reg i _reg), vals.getD i 0 % 256)) := by
  induction is generalizing s with
  | nil => rfl
  | cons i is ih =>
    simp only [DS64BR401_INIT_loop] at h ⊢
    split at h
    · rename_i e; exact absurd h e
    · split at h
      · rename_i e; exact absurd h e
      · rename_i e0 e1
        simp only [e0, e1, if_false]
        rw [ih _ h]
        have f0 : (E.of_property_read_u32_array s.world prop 8).1.1 = 0 := by
          simpa [of_property_read_u32_array] using e0
        have hval : to_u8 ((of_property_read_u32_array E s prop 8).2.1.getD i 0)
            = vals.getD i 0 % 256 := by
          simp only [of_property_read_u32_array, hfv _ f0]
          exact val_getD_to_u8 vals i
        have w0 : (E.i2c_smbus_write_byte_data (E.of_property_read_u32_array s.world prop 8).2
            (to_u8 (ds64br401_chan_reg i _reg))
            (to_u8 ((of_property_read_u32_array E s prop 8).2.1.getD i 0))).1 = 0 := by
          simpa [ds64br401_write, of_property_read_u32_array] using e1
        have hworld : regs (ds64br401_write E (of_property_read_u32_array E s prop 8).2.2
            (ds64br401_chan_reg i _reg)
            ((of_property_read_u32_array E s prop 8).2.1.getD i 0)).2.world =
            Function.update (regs s.world) (to_u8 (ds64br401_chan_reg i _reg))
              (vals.getD i 0 % 256) := by
          show regs (E.i2c_smbus_write_byte_data (E.of_property_read_u32_array s.world prop 8).2
            (to_u8 (ds64br401_chan_reg i _reg))
            (to_u8 ((of_property_read_u32_array E s prop 8).2.1.getD i 0))).2 = _
          rw [hwr _ _ _ w0, hfe, hval]
        rw [hworld]
        rfl

theorem probe_init_world {σ : Type} (E : Env σ) (regs : σ → Nat → Nat)
    (vals : String → List Nat)
    (hwr : ∀ x r v, (E.i2c_smbus_write_byte_data x r v).1 = 0 →
      regs (E.i2c_smbus_write_byte_data x r v).2 = Function.update (regs x) r v)
    (hfe : ∀ x p n, regs (E.of_property_read_u32_array x p n).2 = regs x)
    (hfv : ∀ pk ∈ init_table, ∀ x, (E.of_property_read_u32_array x pk.1 8).1.1 = 0 →
      (E.of_property_read_u32_array x pk.1 8).1.2 = vals pk.1)
    (s : State σ) (h : (ds64br401_probe_init E s).1 = 0) :
    regs (ds64br401_probe_init E s).2.world = apply_writes (regs s.world) (init_writes vals) := by
  have L := fun (pk : String × Int) (hpk : pk ∈ init_table) (t : State σ) =>
    INIT_loop_world E regs pk.1 pk.2 (vals pk.1) hwr hfe (hfv pk hpk) [0, 1, 2, 3, 4, 5, 6, 7] t
  have hW : init_writes vals =
      ([0, 1, 2, 3, 4, 5, 6, 7].map fun i =>
        (to_u8 (ds64br401_chan_reg i DS64BR401_IDLETHRESH),
          (vals "idle-threshold").getD i 0 % 256)) ++
      (([0, 1, 2, 3, 4, 5, 6, 7].map fun i =>
        (to_u8 (ds64br401_chan_reg i DS64BR401_IDLERATE), (vals "idle-rate").getD i 0 % 256)) ++
      (([0, 1, 2, 3, 4, 5, 6, 7].map fun i =>
        (to_u8 (ds64br401_chan_reg i DS64BR401_EQ), (vals "eq").getD i 0 % 256)) ++
      (([0, 1, 2, 3, 4, 5, 6, 7].map fun i =>
        (to_u8 (ds64br401_chan_reg i DS64BR401_VOD), (vals "vod").getD i 0 % 256)) ++
      ([0, 1, 2, 3, 4, 5, 6, 7].map fun i =>
        (to_u8 (ds64br401_chan_reg i DS64BR401_DEM), (vals "dem").getD i 0 % 256))))) := by
    simp only [init_writes, init_table, range_eight, List.flatMap_cons, List.flatMap_nil,
      List.append_nil]
    rfl
  rw [hW]
  simp only [ds64br401_probe_init, DS64BR401_INIT, range_eight] at h ⊢
  split at h
  · rename_i e; exact absurd h e
  · split at h
    · rename_i e; exact absurd h e
    · split at h
      · rename_i e; exact absurd h e
      · split at h
        · rename_i e; exact absurd h e
        · rename_i e1 e2 e3 e4
          simp only [e1, e2, e3, e4, if_false]
          rw [L ("dem", DS64BR401_DEM) (by simp [init_table]) _ h,
            L ("vod", DS64BR401_VOD) (by simp [init_table]) _ (by simpa using e4),
            L ("eq", DS64BR401_EQ) (by simp [init_table]) _ (by simpa using e3),
            L ("idle-rate", DS64BR401_IDLERATE) (by simp [init_table]) _ (by simpa using e2),
            L ("idle-threshold", DS64BR401_IDLETHRESH) (by simp [init_table]) _
              (by simpa using e1)]
          simp only [apply_writes_append]

/-- The register file after a probe that returned `0`, on a device whose
reads and property reads leave the registers alone and whose successful writes
store their byte: the initial file with the reset, power-on, power-down-control
and forty channel writes applied in order. -/
theorem probe_world {σ : Type} (E : Env σ) (regs : σ → Nat → Nat) (vals : String → List Nat)
    (hrf : ∀ x r, regs (E.i2c_smbus_read_byte_data x r).2 = regs x)
    (hwr : ∀ x r v, (E.i2c_smbus_write_byte_data x r v).1 = 0 →
      regs (E.i2c_smbus_write_byte_data x r v).2 = Function.update (regs x) r v)
    (hfe : ∀ x p n, regs (E.of_property_read_u32_array x p n).2 = regs x)
    (hfv : ∀ pk ∈ init_table, ∀ x, (E.of_property_read_u32_array x pk.1 8).1.1 = 0 →
      (E.of_property_read_u32_array x pk.1 8).1.2 = vals pk.1)
    (s : State σ) (h : (ds64br401_probe E s).1 = 0) :
    regs (ds64br401_probe E s).2.world =
      apply_writes (regs s.world)
        ((0, to_u8 (Int.lor (E.i2c_smbus_read_byte_data s.world 0).1 0x01)) :: (1, 0) :: (2, 1) ::
          init_writes vals) := by
  have h8 : to_u8 DS64BR401_RESET = 0 := by decide
  have wworld : ∀ (t : State σ) (reg val : Int), (ds64br401_write E t reg val).1 = 0 →
      regs (ds64br401_write E t reg val).2.world =
        Function.update (regs t.world) (to_u8 reg) (to_u8 val) :=
    fun t reg val h0 => hwr _ _ _ h0
  simp only [ds64br401_probe] at h ⊢
  split at h
  · rename_i e; exact absurd h e
  · split at h
    · rename_i e; exact absurd h e
    · split at h
      · rename_i e; exact absurd h e
      · split at h
        · rename_i e; exact absurd h e
        · rename_i e1 e2 e3 e4
          simp only [e1, e2, e3, e4, if_false]
          have r1 : (ds64br401_reset E s).1 = 0 := by simpa using e1
          have r2 : (ds64br401_power E (ds64br401_reset E s).2 1).1 = 0 := by simpa using e2
          have r3 : (ds64br401_write E (ds64br401_power E (ds64br401_reset E s).2 1).2
              DS64BR401_PWDN_CTL 0x1).1 = 0 := by simpa using e3
          have hreset : regs (ds64br401_reset E s).2.world = Function.update (regs s.world) 0
              (to_u8 (Int.lor (E.i2c_smbus_read_byte_data s.world 0).1 0x01)) := by
            unfold ds64br401_reset at r1 ⊢
            simp only at r1 ⊢
            split at r1
            · rename_i hneg; omega
            · rename_i hneg
              simp only [hneg, if_false]
              rw [wworld _ _ _ r1]
              simp only [ds64br401_read, hrf, h8]
          have hpower : regs (ds64br401_power E (ds64br401_reset E s).2 1).2.world =
              Function.update (regs (ds64br401_reset E s).2.world) 1 0 :=
            wworld _ DS64BR401_PWDN 0 r2
          have hctl := wworld _ DS64BR401_PWDN_CTL 0x1 r3
          show regs (ds64br401_probe_init E _).2.world = _
          rw [probe_init_world E regs vals hwr hfe hfv _ (by simpa using e4), hctl, hpower,
            hreset]
          rfl

theorem probe_writes_nodup (a : Nat) (vals : String → List Nat) :
    (((0, a) :: (1, 0) :: (2, 1) :: init_writes vals).map Prod.fst).Nodup := by
  have h : ((0, a) :: (1, 0) :: (2, 1) :: init_writes vals).map Prod.fst =
      (((0, 0) :: (1, 0) :: (2, 1) :: init_writes (fun _ => [])).map Prod.fst : List Nat) := rfl
  rw [h]; decide

theorem mem_init_writes (vals : String → List Nat) (pk : String × Int) (hpk : pk ∈ init_table)
    (c : Nat) (hc : c < 8) :
    ((ds64br401_chan_reg c pk.2).toNat, (vals pk.1).getD c 0 % 256) ∈ init_writes vals :=
  List.mem_flatMap.mpr ⟨pk, hpk, List.mem_map.mpr ⟨c, List.mem_range.mpr hc, rfl⟩⟩

theorem fst_mem_init_writes (vals : String → List Nat) (r : Nat)
    (h : r ∈ (init_writes vals).map Prod.fst) :
    ∃ pk ∈ init_table, ∃ c, c < 8 ∧ r = (ds64br401_chan_reg c pk.2).toNat := by
  obtain ⟨x, hx, hr⟩ := List.mem_map.mp h
  obtain ⟨pk, hpk, hx⟩ := List.mem_flatMap.mp hx
  obtain ⟨c, hc, hx⟩ := List.mem_map.mp hx
  exact ⟨pk, hpk, c, List.mem_range.mp hc, by rw [← hr, ← hx]⟩

/-- C18: model the device as a register file `regs`: a read returns the
register content and changes nothing, a property read changes nothing, a write
that succeeds stores its byte.  After a probe that returns `0`, with source
values all in `0..255`, every channel register holds the value of its kind for
its channel, register `0x01` holds `0x00`, register `0x02` holds `0x01`,
register `0x00` holds its prior value with bit 0 set, and every register
outside these 43 addresses holds what it held before. -/
theorem registers_after_probe {σ : Type} (E : Env σ) (regs : σ → Nat → Nat)
    (vals : String → List Nat) (w : σ)
    (hrd : (E.i2c_smbus_read_byte_data w 0).1 = (regs w 0 : Int))
    (hrf : ∀ x r, regs (E.i2c_smbus_read_byte_data x r).2 = regs x)
    (hwr : ∀ x r v, (E.i2c_smbus_write_byte_data x r v).1 = 0 →
      regs (E.i2c_smbus_write_byte_data x r v).2 = Function.update (regs x) r v)
    (hfe : ∀ x p n, regs (E.of_property_read_u32_array x p n).2 = regs x)
    (hfv : ∀ pk ∈ init_table, ∀ x, (E.of_property_read_u32_array x pk.1 8).1.1 = 0 →
      (E.of_property_read_u32_array x pk.1 8).1.2 = vals pk.1)
    (_hlen : ∀ pk ∈ init_table, (vals pk.1).length = 8)
    (hbyte : ∀ pk ∈ init_table, ∀ x ∈ vals pk.1, x < 256)
    (h0 : regs w 0 < 256)
    (hok : (ds64br401_probe E (State.init w)).1 = 0) :
    (∀ pk ∈ init_table, ∀ c, c < 8 →
      regs (ds64br401_probe E (State.init w)).2.world (ds64br401_chan_reg c pk.2).toNat =
        (vals pk.1).getD c 0) ∧
    regs (ds64br401_probe E (State.init w)).2.world 0x01 = 0x00 ∧
    regs (ds64br401_probe E (State.init w)).2.world 0x02 = 0x01 ∧
    regs (ds64br401_probe E (State.init w)).2.world 0x00 = regs w 0 ||| 1 ∧
    ∀ r, r ∉ [0x00, 0x01, 0x02] →
      (∀ pk ∈ init_table, ∀ c, c < 8 → r ≠ (ds64br401_chan_reg c pk.2).toNat) →
      regs (ds64br401_probe E (State.init w)).2.world r = regs w r := by
  have hW := probe_world E regs vals hrf hwr hfe hfv (State.init w) hok
  have hw0 : (State.init w).world = w := rfl
  rw [hw0, hrd, lor_one_natCast, to_u8_natCast _ (lor_one_lt _ h0)] at hW
  have hnd := probe_writes_nodup (regs w 0 ||| 1) vals
  rw [hW]
  refine ⟨?_, ?_, ?_, ?_, ?_⟩
  · intro pk hpk c hc
    have hm := mem_init_writes vals pk hpk c hc
    rw [getD_mod_of_bytes _ (hbyte pk hpk)] at hm
    exact apply_writes_hit _ _ _ _ hnd
      (List.mem_cons_of_mem _ (List.mem_cons_of_mem _ (List.mem_cons_of_mem _ hm)))
  · exact apply_writes_hit _ _ _ _ hnd (List.mem_cons_of_mem _ (List.mem_cons_self _ _))
  · exact apply_writes_hit _ _ _ _ hnd
      (List.mem_cons_of_mem _ (List.mem_cons_of_mem _ (List.mem_cons_self _ _)))
  · exact apply_writes_hit _ _ _ _ hnd (List.mem_cons_self _ _)
  · intro r hr hch
    apply apply_writes_frame
    intro hmem
    simp only [List.map_cons, List.mem_cons] at hmem
    simp only [List.mem_cons, List.mem_singleton, List.not_mem_nil, or_false, not_or] at hr
    rcases hmem with h | h | h | h
    · exact hr.1 h
    · exact hr.2.1 h
    · exact hr.2.2 h
    · obtain ⟨pk, hpk, c, hc, hrc⟩ := fst_mem_init_writes vals r h
      exact hch pk hpk c hc hrc

theorem regfileEnv_fetch :
    ∀ pk ∈ init_table, ∀ x, ((regfileEnv sampleCells).of_property_read_u32_array x pk.1 8).1.1 = 0 →
      ((regfileEnv sampleCells).of_property_read_u32_array x pk.1 8).1.2 = sampleVals pk.1 := by
  intro pk hpk x _
  simp only [init_table, List.mem_cons, List.mem_singleton, List.not_mem_nil, or_false] at hpk
  rcases hpk with e | e | e | e | e <;> subst e <;> rfl

theorem regfileEnv_fetch_frame (cells : String → Option (List Nat)) :
    ∀ (x : Nat → Nat) p n, ((regfileEnv cells).of_property_read_u32_array x p n).2 = x := by
  intro x p n
  simp only [regfileEnv]
  split
  · rfl
  · split <;> rfl

/-- Witness for C18: a register file holding `0xa0` everywhere, probed with
the sample device tree.  Afterwards register `0x43` holds 55, register `0x01`
holds `0x00`, register `0x02` holds `0x01`, register `0x00` holds `0xa1`, and
register `0x08` still holds `0xa0`. -/
theorem registers_after_probe_witness :
    (ds64br401_probe (regfileEnv sampleCells) (State.init (fun _ => 0xa0))).2.world 0x43 = 55 ∧
    (ds64br401_probe (regfileEnv sampleCells) (State.init (fun _ => 0xa0))).2.world 0x01 = 0x00 ∧
    (ds64br401_probe (regfileEnv sampleCells) (State.init (fun _ => 0xa0))).2.world 0x02 = 0x01 ∧
    (ds64br401_probe (regfileEnv sampleCells) (State.init (fun _ => 0xa0))).2.world 0x00 = 0xa1 ∧
    (ds64br401_probe (regfileEnv sampleCells) (State.init (fun _ => 0xa0))).2.world 0x08 = 0xa0 :=
  have h := registers_after_probe (regfileEnv sampleCells) id sampleVals (fun _ => 0xa0)
    rfl (fun _ _ => rfl) (fun _ _ _ _ => rfl) (regfileEnv_fetch_frame sampleCells)
    regfileEnv_fetch sampleVals_length sampleVals_bytes (by decide) (by decide)
  ⟨h.1 ("dem", DS64BR401_DEM) (by decide) 7 (by decide), h.2.1, h.2.2.1, h.2.2.2.1,
   h.2.2.2.2 8 (by decide) (by
    intro pk hpk c hc
    simp only [init_table, List.mem_cons, List.mem_singleton, List.not_mem_nil, or_false] at hpk
    interval_cases c <;> rcases hpk with e | e | e | e | e <;> subst e <;> decide)⟩

end DS64BR401
